import Mathlib

/-!
Verification of the role-and-ownership-scoped RAG retrieval pipeline of this
repository (backend/app/services/document_service.py, backend/app/config/access.py,
backend/app/api/V1/documents.py).

The embedding is shallow: Python values that may be either `str` or `int`
(metadata payload values, user ids, document ids) are modelled by `PValue`;
Qdrant filters (`Filter`, `FieldCondition`, `MatchValue`, `MatchAny`) by the
`Cond`/`QFilter` types with their boolean satisfaction semantics; similarity
scores by `ℚ`; the vector index's similarity search, the text chunker, the
PDF text extractor and the clock are external collaborators and appear as
function parameters.  String predicates follow Python semantics restricted to
ASCII text (`str.isdigit`, `str.strip`, `str.lower`, regex `\w`, `\d`, `\s`).
-/

/-- A Python scalar that is either a `str` or an `int` (payload values,
user ids, document ids). -/
inductive PValue where
  | pstr (s : String)
  | pint (n : Int)
deriving DecidableEq, Repr

/-- Python `str(v)`. -/
def pvToString : PValue → String
  | .pstr s => s
  | .pint n => toString n

/-- Python truthiness of a scalar: empty string and `0` are falsy. -/
def pvTruthy : PValue → Bool
  | .pstr s => s ≠ ""
  | .pint n => n ≠ 0

/-- Python regex `\s`: space, tab, newline, carriage return, form feed,
vertical tab (also the characters `str.strip` removes). -/
def isPySpace (c : Char) : Bool :=
  c = ' ' || c = '\t' || c = '\n' || c = '\r' || c = '\x0c' || c = '\x0b'

/-- Python `s.strip()` (ASCII whitespace). -/
def pyStrip (s : String) : String :=
  ⟨((s.toList.dropWhile isPySpace).reverse.dropWhile isPySpace).reverse⟩

/-- Python `c.lower()` on an ASCII character. -/
def pyCharLower (c : Char) : Char :=
  if 65 ≤ c.toNat && c.toNat ≤ 90 then Char.ofNat (c.toNat + 32) else c

/-- Python `s.lower()` (ASCII). -/
def pyLower (s : String) : String :=
  ⟨s.toList.map pyCharLower⟩

/-- Python `s.startswith(pre)`. -/
def strStartsWith (s pre : String) : Bool :=
  pre.toList.isPrefixOf s.toList

/-- A chunk's flat metadata dictionary (also used, with dotted keys, as the
point payload seen by Qdrant filters).  Keys are unique in payloads written
by this code base; lookup returns the first binding. -/
abbrev Payload : Type := List (String × PValue)

/-- Dictionary lookup `d.get(k)`. -/
def payloadGet (p : Payload) (k : String) : Option PValue :=
  (List.find? (fun kv => kv.1 = k) p).map (·.2)

/-- Qdrant match clause: `MatchValue(value=v)` or `MatchAny(any=vs)`. -/
inductive MatchCond where
  | value (v : PValue)
  | anyOf (vs : List String)
deriving DecidableEq, Repr

/-- `MatchValue` is typed equality; `MatchAny(any=[...])` matches a string
payload value that is a member of the list. -/
def matchCondSat (m : MatchCond) (v : PValue) : Bool :=
  match m with
  | .value w => v = w
  | .anyOf vs => match v with
      | .pstr s => vs.contains s
      | .pint _ => false

/-- A Qdrant filter condition: a `FieldCondition(key=.., match=..)` or a
nested `Filter(must=.., should=..)` used as a condition. -/
inductive Cond where
  | field (key : String) (m : MatchCond)
  | nested (must : List Cond) (should : List Cond)

/-- A Qdrant `Filter`: all of `must` and, when `should` is non-empty, at
least one of `should` must hold. -/
structure QFilter where
  must : List Cond := []
  should : List Cond := []

mutual

/-- Satisfaction of one condition by a point payload. -/
def condSat (p : Payload) : Cond → Bool
  | .field k m =>
      match payloadGet p k with
      | some v => matchCondSat m v
      | none => false
  | .nested must should => condsAll p must && (should.isEmpty || condsAny p should)

/-- All conditions hold. -/
def condsAll (p : Payload) : List Cond → Bool
  | [] => true
  | c :: cs => condSat p c && condsAll p cs

/-- At least one condition holds. -/
def condsAny (p : Payload) : List Cond → Bool
  | [] => false
  | c :: cs => condSat p c || condsAny p cs

end

/-- A payload satisfies a filter. -/
def filterSat (f : QFilter) (p : Payload) : Bool :=
  condSat p (.nested f.must f.should)

/-- Code-point comparison of characters. -/
def charLt (a b : Char) : Bool := a.toNat < b.toNat

/-- Lexicographic code-point order on character lists (Python string
comparison). -/
def charListLe : List Char → List Char → Bool
  | [], _ => true
  | _ :: _, [] => false
  | a :: as, b :: bs =>
      if charLt a b then true else if charLt b a then false else charListLe as bs

/-- Python `a <= b` on strings. -/
def strLe (a b : String) : Bool := charListLe a.toList b.toList

/-- Insert into a sorted list of strings. -/
def orderedInsertStr (a : String) : List String → List String
  | [] => [a]
  | b :: bs => if strLe a b then a :: b :: bs else b :: orderedInsertStr a bs

/-- Sort a list of strings lexicographically (Python `sorted`). -/
def sortStrings : List String → List String
  | [] => []
  | a :: as => orderedInsertStr a (sortStrings as)

/-- Python `sorted(set(l))`: distinct elements in ascending order. -/
def sortedSet (l : List String) : List String :=
  sortStrings l.dedup

-- ---------------------------------------------------------------------------
-- backend/app/config/access.py
-- ---------------------------------------------------------------------------

/-- `ROLE_ACCESS`: which groups each role may access, in addition to the
user's own documents. -/
def ROLE_ACCESS : List (String × List String) :=
  [("admin", ["invoice", "salary", "purchase_order", "inventory"]),
   ("hr",    ["salary", "employee", "invoice"]),
   ("it",    ["network", "infra", "purchase_order"]),
   ("user",  ["invoice", "shipping_order"])]

/-- `ALL_GROUPS`: flattened, deduplicated, sorted list of all known groups. -/
def ALL_GROUPS : List String :=
  sortedSet (ROLE_ACCESS.map Prod.snd).flatten

/-- `groups_for_role`: allowed groups for a role name, case-insensitive;
unknown or empty role yields `[]`. -/
def groups_for_role (role_name : String) : List String :=
  if role_name = "" then []
  else ((ROLE_ACCESS.find? (fun rg => rg.1 = pyLower role_name)).map Prod.snd).getD []

-- ---------------------------------------------------------------------------
-- backend/app/api/V1/documents.py, upload_pdf: group-tag validation
-- ---------------------------------------------------------------------------

/-- The group-tag validation performed by the upload endpoint: reject a tag
that is not in `ALL_GROUPS` with a descriptive error listing the valid tags. -/
def upload_group_tag_check (group_tag : String) : Except String Unit :=
  if group_tag ∈ ALL_GROUPS then .ok ()
  else .error ("Invalid group_tag '" ++ group_tag ++ "'. Allowed: " ++
    String.intercalate ", " ALL_GROUPS)

-- ---------------------------------------------------------------------------
-- backend/app/services/document_service.py: small helpers
-- ---------------------------------------------------------------------------

/-- Python `s.isdigit()` (ASCII): non-empty and all characters are digits. -/
def pyIsDigit (s : String) : Bool :=
  s.length > 0 && s.toList.all Char.isDigit

/-- Value of a decimal digit string, `int(s)` for `s.isdigit()` strings. -/
def digitsToNat (s : String) : Nat :=
  s.toList.foldl (fun n c => n * 10 + (c.toNat - 48)) 0

/-- `_normalize_user_id`: accept a digit string or an int, otherwise raise
`ValueError` (modelled as `Except.error` with the formatted message). -/
def normalize_user_id (user_id : PValue) : Except String Int :=
  match user_id with
  | .pstr s =>
      if pyIsDigit s then .ok (Int.ofNat (digitsToNat s))
      else .error ("Invalid user_id: " ++ s)
  | .pint n => .ok n

/-- `_normalize_document_id`: `str(document_id)`. -/
def normalize_document_id (document_id : PValue) : String :=
  pvToString document_id

/-- Python `int(s)` on a string: optional surrounding whitespace, optional
sign, then decimal digits; `none` models a raised `ValueError`. -/
def pyIntOfString (s : String) : Option Int :=
  let t := pyStrip s
  let core := if strStartsWith t "-" || strStartsWith t "+" then t.drop 1 else t
  if pyIsDigit core then
    some (if strStartsWith t "-" then -(Int.ofNat (digitsToNat core))
          else Int.ofNat (digitsToNat core))
  else none

/-- Python `int(v)` for a str-or-int value. -/
def pyIntOfPValue : PValue → Option Int
  | .pstr s => pyIntOfString s
  | .pint n => some n

/-- `_as_str_int_variants`: the value itself plus its int (for digit
strings) or string (for ints) counterpart. -/
def as_str_int_variants (v : PValue) : List PValue :=
  match v with
  | .pstr s => if pyIsDigit s then [v, .pint (Int.ofNat (digitsToNat s))] else [v]
  | .pint n => [v, .pstr (toString n)]

/-- `_collect_roles` restricted to the `roles` alias actually used by the
callers under verification (the other keyword aliases are concatenated the
same way before this normalisation): strip, lowercase, drop empties,
deduplicate, sort. -/
def collect_roles (roles : List String) : List String :=
  sortedSet (roles.filterMap (fun r =>
    if pyStrip r = "" then none else some (pyLower (pyStrip r))))

/-- `_access_groups_from_roles`: union of `groups_for_role` over the roles,
dropping falsy roles and groups, sorted. -/
def access_groups_from_roles (roles : List String) : List String :=
  sortedSet (((roles.filter (fun r => r ≠ "")).map groups_for_role).flatten.filter
    (fun g => g ≠ ""))

/-- `_strict_access_filter`: deny-all sentinel filter when `allowed_groups`
is empty, otherwise `metadata.group_tag ∈ allowed_groups` plus, under user
scope, `metadata.user_id == str(user_id)`. -/
def strict_access_filter (allowed_groups : List String) (user_id : Option PValue)
    (use_user_scope : Bool) : QFilter :=
  if allowed_groups = [] then
    ⟨[.field "metadata.group_tag" (.value (.pstr "__NO_ACCESS__"))], []⟩
  else
    ⟨[.field "metadata.group_tag" (.anyOf allowed_groups)] ++
      (match user_id with
       | some u => if use_user_scope then
           [.field "metadata.user_id" (.value (.pstr (pvToString u)))] else []
       | none => []), []⟩

/-- The metadata field names probed for the owner id. -/
def userFieldNames : List String := ["user_id", "owner_id", "user", "uid"]

/-- The four key spellings probed for a group value. -/
def groupKeySpellings : List String :=
  ["metadata.group_tag", "metadata.group", "group_tag", "group"]

/-- The owner-id conditions of `_build_user_or_group_filter`: every user
field name, under both the nested and the top-level spelling, for every
str/int variant of the user id. -/
def uogUserConds (user_id : PValue) : List Cond :=
  userFieldNames.flatMap (fun uf =>
    (as_str_int_variants user_id).flatMap (fun v =>
      [.field ("metadata." ++ uf) (.value v), .field uf (.value v)]))

/-- The group conditions of `_build_user_or_group_filter`: every non-blank
group under all four key spellings. -/
def uogGroupConds (groups : List String) : List Cond :=
  (groups.filter (fun g => g ≠ "" && pyStrip g ≠ "")).flatMap (fun g =>
    groupKeySpellings.map (fun k => .field k (.value (.pstr g))))

/-- `_build_user_or_group_filter`: owner OR in-allowed-groups, emitted
against both nested (`metadata.`-prefixed) and legacy top-level key
spellings and both str/int variants of the user id; with no conditions at
all, an unsatisfiable deny filter. -/
def build_user_or_group_filter (user_id : PValue) (groups : List String) : QFilter :=
  let should := uogUserConds user_id ++ uogGroupConds groups
  if should.isEmpty then
    ⟨[.field "metadata.user_id" (.value (.pstr "__NO_ACCESS__"))], []⟩
  else
    ⟨[], should⟩

/-- `_must_document_ids_filter`: any of the document ids, across nested and
legacy key spellings. -/
def must_document_ids_filter (doc_ids : List PValue) : QFilter :=
  let should : List Cond := doc_ids.flatMap (fun did =>
    [.field "metadata.document_id" (.value (.pstr (pvToString did))),
     .field "document_id" (.value (.pstr (pvToString did)))])
  if should.isEmpty then ⟨[], []⟩ else ⟨[], should⟩

/-- `_should_filenames_filter`: any filename across nested and legacy keys,
skipping falsy names. -/
def should_filenames_filter (filenames : List (Option String)) : QFilter :=
  let should : List Cond := filenames.flatMap (fun name =>
    match name with
    | some n =>
        if n = "" then []
        else ["metadata.filename", "metadata.source", "filename", "source"].map
          (fun k => .field k (.value (.pstr n)))
    | none => [])
  if should.isEmpty then ⟨[], []⟩ else ⟨[], should⟩

/-- `_create_chunk_header`: tiny searchable header prepended to a chunk. -/
def create_chunk_header (filename : Option String) (document_id : String)
    (user_id : String) (chunk_index : Nat) : String :=
  let fn := match filename with
    | some f => if f = "" then "unknown" else f
    | none => "unknown"
  "[filename:" ++ fn ++ " | document_id:" ++ document_id ++ " | user_id:" ++
    user_id ++ " | chunk:" ++ toString chunk_index ++ "]\n"

-- ---------------------------------------------------------------------------
-- String scanning: Python `in`, SQL ILIKE, and `_extract_doc_hints`
-- ---------------------------------------------------------------------------

/-- Substring test on character lists (Python `needle in hay`). -/
def containsSub (hay needle : List Char) : Bool :=
  if needle.isPrefixOf hay then true
  else match hay with
    | [] => false
    | _ :: t => containsSub t needle

/-- Python `needle in hay` on strings. -/
def strContains (hay needle : String) : Bool :=
  containsSub hay.toList needle.toList

/-- SQL LIKE matching: `%` matches any sequence, `_` any one character. -/
def likeMatch : List Char → List Char → Bool
  | [], [] => true
  | '%' :: ps, s =>
      likeMatch ps s ||
        (match s with
         | [] => false
         | _ :: s' => likeMatch ('%' :: ps) s')
  | '_' :: ps, _ :: ss => likeMatch ps ss
  | '_' :: _, [] => false
  | c :: ps, d :: ss => c = d && likeMatch ps ss
  | _ :: _, [] => false
  | [], _ :: _ => false
termination_by p s => (p.length, s.length)

/-- SQLAlchemy `column.ilike(pattern)`: case-insensitive LIKE; a NULL column
never matches. -/
def ilike (column : Option String) (pattern : String) : Bool :=
  match column with
  | none => false
  | some s => likeMatch (pyLower pattern).toList (pyLower s).toList

/-- Python regex `\w` on lowercased ASCII text. -/
def isWordChar (c : Char) : Bool :=
  c.isAlphanum || c = '_'

/-- One match of `invoice[_\s]*(\d+)` anchored at the head of the input:
returns the captured digits and the rest of the input after the match. -/
def matchInvoiceAt (l : List Char) : Option (String × List Char) :=
  if "invoice".toList.isPrefixOf l then
    let r1 := l.drop 7
    let r2 := r1.dropWhile (fun c => c = '_' || isPySpace c)
    let ds := r2.takeWhile Char.isDigit
    if ds.isEmpty then none
    else some (⟨ds⟩, r2.drop ds.length)
  else none

/-- `re.findall(r'invoice[_\s]*(\d+)', q)`: left-to-right, non-overlapping.
The fuel argument (instantiated with the input length) bounds the scan. -/
def scanInvoiceNums : Nat → List Char → List String
  | 0, _ => []
  | _, [] => []
  | fuel + 1, l =>
      match matchInvoiceAt l with
      | some (num, rest) => num :: scanInvoiceNums fuel rest
      | none => scanInvoiceNums fuel l.tail

/-- Word boundary after a match: end of input or a non-word character. -/
def boundaryAfter : List Char → Bool
  | [] => true
  | c :: _ => !isWordChar c

/-- Try one extension alternative of `(pdf|doc|docx|txt)` followed by `\b`. -/
def tryExt (ext : String) (r : List Char) : Option (List Char × List Char) :=
  let el := ext.toList
  if el.isPrefixOf r && boundaryAfter (r.drop el.length) then
    some (el, r.drop el.length)
  else none

/-- One match of `\b(\w+\.(pdf|doc|docx|txt))\b` anchored at the head of the
input (the caller guarantees the left word boundary).  The maximal `\w+` run
is exact here because any shorter run is followed by a word character, not
by `.`; the alternatives are tried in the pattern's order. -/
def matchFilenameAt (l : List Char) : Option (String × List Char) :=
  let w := l.takeWhile isWordChar
  if w.isEmpty then none
  else
    match l.drop w.length with
    | '.' :: r2 =>
        match tryExt "pdf" r2 <|> tryExt "doc" r2 <|> tryExt "docx" r2 <|>
              tryExt "txt" r2 with
        | some (el, rest) => some (⟨w ++ '.' :: el⟩, rest)
        | none => none
    | _ => none

/-- `re.findall(r'\b(\w+\.(pdf|doc|docx|txt))\b', q)` keeping the outer
capture group: left-to-right, non-overlapping, starting only at word
boundaries (`prev` is the character before the scan position). -/
def scanFilenames : Nat → Option Char → List Char → List String
  | 0, _, _ => []
  | _, _, [] => []
  | fuel + 1, prev, l =>
      let boundary := match prev with
        | some p => !isWordChar p
        | none => true
      if boundary then
        match matchFilenameAt l with
        | some (name, rest) =>
            name :: scanFilenames fuel (name.toList.getLast?) rest
        | none => scanFilenames fuel l.head? l.tail
      else scanFilenames fuel l.head? l.tail

/-- The fixed document-type tokens probed by `_extract_doc_hints`. -/
def docHintTokens : List String :=
  ["invoice", "report", "letter", "cover", "resume", "cv", "shipping", "order"]

/-- `_extract_doc_hints`: invoice numbers, filename-looking tokens and fixed
document-type words found in the lowercased query, deduplicated and sorted. -/
def extract_doc_hints (query : String) : List String :=
  let q := pyLower query
  let hints :=
    (scanInvoiceNums q.length q.toList).map (fun m => "invoice_" ++ m) ++
    scanFilenames q.length none q.toList ++
    docHintTokens.filter (fun t => strContains q t)
  sortedSet hints

-- ---------------------------------------------------------------------------
-- Vector store, relational rows, indexing, deletion, reprocessing
-- ---------------------------------------------------------------------------

/-- A stored vector point: chunk text plus flattened payload (chunk metadata
nested under the `metadata.` key prefix, as langchain-qdrant stores it). -/
structure Point where
  content : String
  payload : Payload
deriving DecidableEq

/-- The vector collection, a bag of points. -/
abbrev Store : Type := List Point

/-- The external text chunker `chunk_text(text, chunk_size, chunk_overlap)`
(langchain's RecursiveCharacterTextSplitter), an external collaborator. -/
abbrev Chunker : Type := String → Nat → Nat → List String

/-- Raw PDF bytes. -/
abbrev FileBytes : Type := List Nat

/-- The external best-effort PDF text extraction
`_extract_text_from_pdf_bytes`. -/
abbrev Extractor : Type := FileBytes → String

/-- A row of the `documents` table, with the columns this pipeline reads
and writes. -/
structure DocRow where
  id : Int
  filename : Option String
  original_filename : Option String
  user_id : Int
  group_tag : Option String
  extracted_text : Option String
  file_content : Option FileBytes
  is_processed : Bool
  chunks_count : Nat
  processing_status : String
  processed_at : Option String
  created_at : Nat
deriving DecidableEq

/-- The documents table. -/
abbrev DB : Type := List DocRow

/-- `get_document_by_id`: first row with the given id, optionally also
owned by the given user. -/
def get_document_by_id (db : DB) (document_id : Int) (user_id : Option Int) :
    Option DocRow :=
  db.find? (fun d => d.id = document_id &&
    (match user_id with
     | some u => d.user_id = u
     | none => true))

/-- Commit of mutations made through a row fetched with
`get_document_by_id(db, id, user_id=uid)`. -/
def dbUpdate (db : DB) (document_id : Int) (user_id : Int) (f : DocRow → DocRow) :
    DB :=
  db.map (fun d => if d.id = document_id && d.user_id = user_id then f d else d)

/-- The metadata dictionary `index_text` attaches to one chunk. -/
def indexChunkMeta (uidStr docIdStr : String) (idx : Nat) (now : String)
    (source_filename : Option String) (group_tag : Option String) : Payload :=
  ([("user_id", PValue.pstr uidStr),
    ("document_id", PValue.pstr docIdStr),
    ("chunk_index", PValue.pint (Int.ofNat idx)),
    ("created_at", PValue.pstr now)] ++
   (match source_filename with
    | some f => if f ≠ "" then
        [("filename", PValue.pstr f), ("source", PValue.pstr f)] else []
    | none => []) ++
   (match group_tag with
    | some g => if g ≠ "" then
        [("group_tag", PValue.pstr g), ("group", PValue.pstr g)] else []
    | none => []) : List (String × PValue))

/-- Nest a chunk metadata dictionary under the `metadata.` payload prefix. -/
def nestMeta (m : Payload) : Payload :=
  List.map (fun kv => ("metadata." ++ kv.1, kv.2)) m

/-- The list of points `index_text` builds for a text: chunk, enumerate,
skip whitespace-only chunks, optionally prepend the searchable header. -/
def indexDocs (chunker : Chunker) (text : String) (uid : Int)
    (document_id : PValue) (group_tag : Option String)
    (source_filename : Option String) (chunk_size chunk_overlap : Nat)
    (add_chunk_headers : Bool) (now : String) : List Point :=
  let docIdStr := normalize_document_id document_id
  let chunks := chunker text chunk_size chunk_overlap
  chunks.enum.filterMap (fun ic =>
    if pyStrip ic.2 = "" then none
    else
      let content :=
        if add_chunk_headers then
          create_chunk_header source_filename docIdStr (toString uid) ic.1 ++ ic.2
        else ic.2
      some ⟨content, nestMeta (indexChunkMeta (toString uid) docIdStr ic.1 now
        source_filename group_tag)⟩)

/-- Result dictionary of `index_text`, plus the updated collection. -/
structure IndexOut where
  chunks_count : Nat
  error : Option String
  store : Store

/-- `index_text`: refuse empty text, normalize the user id (failure is the
caught exception path), chunk, build points, add them to the collection. -/
def index_text (chunker : Chunker) (store : Store) (text : String)
    (user_id : PValue) (document_id : PValue) (group_tag : Option String)
    (source_filename : Option String) (chunk_size chunk_overlap : Nat)
    (add_chunk_headers : Bool) (now : String) : IndexOut :=
  if pyStrip text = "" then ⟨0, some "No text to index", store⟩
  else
    match normalize_user_id user_id with
    | .error e => ⟨0, some e, store⟩
    | .ok uid =>
        let docs := indexDocs chunker text uid document_id group_tag
          source_filename chunk_size chunk_overlap add_chunk_headers now
        ⟨docs.length, none, store ++ docs⟩

/-- The deletion filter of `remove_document_points`: either key spelling of
the document id. -/
def removePointsQFilter (docIdStr : String) : QFilter :=
  ⟨[], [.field "metadata.document_id" (.value (.pstr docIdStr)),
        .field "document_id" (.value (.pstr docIdStr))]⟩

/-- `remove_document_points`: scroll up to 10000 points matching either
document-id spelling and delete them; returns the updated collection and
the number of deleted points. -/
def remove_document_points (store : Store) (document_id : PValue) :
    Store × Nat :=
  let docIdStr := normalize_document_id document_id
  let scrolled :=
    (store.filter (fun p => filterSat (removePointsQFilter docIdStr) p.payload)).take
      10000
  if scrolled.isEmpty then (store, 0)
  else ((store.filter (fun p => !scrolled.contains p) : List Point), scrolled.length)

/-- The text `reprocess_document` indexes: the stored extracted text, or a
fresh extraction from the stored file bytes when the stored text is blank
and non-empty bytes exist. -/
def reprocessText (extract : Extractor) (doc : DocRow) : String :=
  let text0 := (doc.extracted_text.getD "")
  if pyStrip text0 = "" then
    match doc.file_content with
    | some bs => if bs.isEmpty then text0 else extract bs
    | none => text0
  else text0

/-- Outcome of `reprocess_document`: its boolean return, the final value of
its `chunks_count` local, and the mutated table and collection. -/
structure ReprocessOut where
  ok : Bool
  chunks_count : Nat
  db : DB
  store : Store
deriving DecidableEq

/-- `reprocess_document`: fetch the owned row, delete the document's index
points (both key spellings), re-extract text if needed, re-index, update
the row's status columns; `ok` iff at least one chunk was indexed. -/
def reprocess_document (chunker : Chunker) (extract : Extractor) (now : String)
    (db : DB) (store : Store) (document_id : PValue) (user_id : PValue) :
    ReprocessOut :=
  match normalize_user_id user_id with
  | .error _ => ⟨false, 0, db, store⟩
  | .ok uid =>
    match pyIntOfPValue document_id with
    | none => ⟨false, 0, db, store⟩
    | some did =>
      match get_document_by_id db did (some uid) with
      | none => ⟨false, 0, db, store⟩
      | some doc =>
        let store1 := (remove_document_points store document_id).1
        let text := reprocessText extract doc
        let db1 :=
          if pyStrip (doc.extracted_text.getD "") = "" &&
             (match doc.file_content with
              | some bs => !bs.isEmpty
              | none => false) then
            dbUpdate db did uid (fun d => { d with extracted_text := some text })
          else db
        if pyStrip text = "" then
          let db2 := dbUpdate db1 did uid (fun d =>
            { d with processing_status := "empty", is_processed := false,
                     processed_at := some now })
          ⟨false, 0, db2, store1⟩
        else
          let out := index_text chunker store1 text (.pint uid) document_id
            doc.group_tag doc.filename 1200 200 true now
          let cc := out.chunks_count
          let db2 := dbUpdate db1 did uid (fun d =>
            if 0 < cc then
              { d with chunks_count := cc, processing_status := "completed",
                       is_processed := true, processed_at := some now }
            else
              { d with processing_status := "empty", is_processed := false,
                       processed_at := some now })
          ⟨0 < cc, cc, db2, out.store⟩

-- ---------------------------------------------------------------------------
-- Search results, the per-hit access check of `rag_search_retry`
-- ---------------------------------------------------------------------------

/-- A hit returned by the vector index: chunk text plus the chunk's
(un-nested) metadata dictionary. -/
structure Chunk where
  page_content : String
  metadata : Payload
deriving DecidableEq

/-- A formatted search result `{"text", "score", "metadata"}`. -/
structure SearchResult where
  text : String
  score : ℚ
  metadata : Payload
deriving DecidableEq

/-- One `SearchAttempt` diagnostic record of the retry ladder. -/
structure SearchAttempt where
  tag : String
  raw : Nat
  kept : Nat
  k : Nat
  min_sim : ℚ
deriving DecidableEq

/-- The vector index's `similarity_search_with_score`, an external
collaborator: collection state, query text, filter and candidate count to
an ordered hit list (descending similarity). -/
abbrev Engine : Type := Store → String → QFilter → Nat → List (Chunk × ℚ)

/-- `str(meta.get("user_id", ""))` in the ladder's per-hit check. -/
def docUserId (meta : Payload) : String :=
  pvToString ((payloadGet meta "user_id").getD (.pstr ""))

/-- `meta.get("group_tag") or meta.get("group")`: the hit's group under the
current spelling, falling back to the legacy one when falsy. -/
def docGroup (meta : Payload) : Option PValue :=
  match payloadGet meta "group_tag" with
  | some v => if pvTruthy v then some v else payloadGet meta "group"
  | none => payloadGet meta "group"

/-- Owner access: the hit's user id is truthy and equals the requester's. -/
def ownerAccessOk (uidStr : String) (meta : Payload) : Bool :=
  docUserId meta ≠ "" && docUserId meta = uidStr

/-- Group access: the hit's group is truthy and a member of the allowed
list (Python `in` over a list of strings). -/
def groupAccessOk (groups : List String) (meta : Payload) : Bool :=
  match docGroup meta with
  | some v => pvTruthy v &&
      (match v with
       | .pstr s => groups.contains s
       | .pint _ => false)
  | none => false

/-- `sim >= min_sim`, the greater-or-equal similarity floor. -/
def keep_similarity (sim min_sim : ℚ) : Bool :=
  min_sim ≤ sim

/-- The kept-result loop of `_try_search`: walk the raw hits in order, skip
hits under the floor, keep owner- or group-accessible hits, break once
`limit` results have been collected (`count` is the running length). -/
def collectKeptAux (uidStr : String) (groups : List String) (limit : Nat)
    (minSim : ℚ) : Nat → List (Chunk × ℚ) → List SearchResult
  | _, [] => []
  | count, (doc, score) :: rest =>
      if !keep_similarity score minSim then
        collectKeptAux uidStr groups limit minSim count rest
      else if ownerAccessOk uidStr doc.metadata then
        let r : SearchResult := ⟨doc.page_content, score, doc.metadata⟩
        if limit ≤ count + 1 then [r]
        else r :: collectKeptAux uidStr groups limit minSim (count + 1) rest
      else if groupAccessOk groups doc.metadata then
        let r : SearchResult := ⟨doc.page_content, score, doc.metadata⟩
        if limit ≤ count + 1 then [r]
        else r :: collectKeptAux uidStr groups limit minSim (count + 1) rest
      else
        collectKeptAux uidStr groups limit minSim count rest

/-- The kept results of one `_try_search` invocation. -/
def collectKept (uidStr : String) (groups : List String) (limit : Nat)
    (minSim : ℚ) (raw : List (Chunk × ℚ)) : List SearchResult :=
  collectKeptAux uidStr groups limit minSim 0 raw

/-- Outcome of `_try_search`: the kept list and the appended attempt. -/
structure TryOut where
  kept : List SearchResult
  attempt : SearchAttempt

/-- `_try_search`: run the filtered similarity query, apply the per-hit
access-and-floor check, record a `SearchAttempt`. -/
def try_search (engine : Engine) (store : Store) (query tag : String)
    (qfilter : QFilter) (k : Nat) (min_sim : ℚ) (uidStr : String)
    (groups : List String) (limit : Nat) : TryOut :=
  let raw := engine store query qfilter k
  let local_kept := collectKept uidStr groups limit min_sim raw
  ⟨local_kept, ⟨tag, raw.length, local_kept.length, k, min_sim⟩⟩

-- ---------------------------------------------------------------------------
-- The retry ladder `rag_search_retry`
-- ---------------------------------------------------------------------------

/-- Result dictionary of `rag_search_retry` (the informational `params` key
is omitted). -/
structure RagResult where
  results : List SearchResult
  attempts : List SearchAttempt
  error : Option String := none
deriving DecidableEq

/-- The fixed document-type terms step D probes the query for. -/
def ladderDbTerms : List String :=
  ["resume", "cv", "cover", "letter", "invoice", "shipping", "order",
   "slides", "presentation", "report", "pdf", "doc"]

/-- Insert into a list of rows sorted by descending creation time. -/
def insertRowDesc (a : DocRow) : List DocRow → List DocRow
  | [] => [a]
  | b :: bs => if b.created_at ≤ a.created_at then a :: b :: bs
               else b :: insertRowDesc a bs

/-- `ORDER BY created_at DESC`. -/
def sortRowsByCreatedDesc : List DocRow → List DocRow
  | [] => []
  | a :: as => insertRowDesc a (sortRowsByCreatedDesc as)

/-- Step D of the ladder (the DB filename probe): collect hint terms, run
the ILIKE query over the caller's own rows (newest first, at most 10), and
keep ids/filenames of rows that are ungrouped or in an allowed group.  This
step records no `SearchAttempt`. -/
def ladderProbe (db : Option DB) (query : String) (preferred : List String)
    (uid : Int) (group_list : List String) :
    List Int × List (Option String) :=
  match db with
  | none => ([], [])
  | some rows =>
      let ql := pyLower query
      let terms0 := preferred ++ extract_doc_hints query ++
        ladderDbTerms.filter (fun t => strContains ql t)
      let terms := (sortedSet terms0).filter (fun t => t ≠ "")
      if terms.isEmpty then ([], [])
      else
        let likePat := "%" ++ String.intercalate "%" terms ++ "%"
        let sel := (sortRowsByCreatedDesc (rows.filter (fun d =>
            (ilike d.filename likePat || ilike d.original_filename likePat) &&
            d.user_id = uid))).take 10
        sel.foldl (fun acc r =>
          match get_document_by_id rows r.id (some uid) with
          | none => acc
          | some meta =>
              let okGroup := match meta.group_tag with
                | none => true
                | some g => g = "" || group_list.contains g
              if okGroup then (acc.1 ++ [r.id], acc.2 ++ [r.filename])
              else acc)
          ([], [])

/-- Step F's reindex loop: reprocess each candidate document the caller
owns, threading the table and collection, recording whether any reindex
succeeded. -/
def ladderReindex (chunker : Chunker) (extract : Extractor) (now : String)
    (db : DB) (store : Store) (ids : List Int) (uid : Int) :
    DB × Store × Bool :=
  ids.foldl (fun st did =>
    match get_document_by_id st.1 did (some uid) with
    | some _ =>
        let r := reprocess_document chunker extract now st.1 st.2.1
          (.pint did) (.pint uid)
        (r.db, r.store, st.2.2 || r.ok)
    | none => st)
    (db, store, false)

/-- Whether ladder step F will run its post-reindex search: a DB session
is present, step D produced candidate ids, and reindexing at least one of
them succeeded. -/
def ladderReindexFlag (chunker : Chunker) (extract : Extractor) (now : String)
    (db : Option DB) (store : Store) (ids : List Int) (uid : Int) : Bool :=
  match db with
  | none => false
  | some rows =>
      !ids.isEmpty && (ladderReindex chunker extract now rows store ids uid).2.2

/-- The attempt tags the ladder records on exhaustion: A, B and C always;
E, E2 and F only when their guards fire.  Step D records no attempt. -/
def ladderExpectedTags (ids : List Int) (fns : List (Option String))
    (reindexed : Bool) : List String :=
  ["A:user+groups", "B:user+groups wide", "C:user only"] ++
  (if ids.isEmpty then [] else ["E:doc_id filter"]) ++
  (if fns.isEmpty then [] else ["E2:filename filter"]) ++
  (if reindexed then ["F:post-reindex"] else [])

/-- Ladder step F (reindex-and-retry), entered with the attempts recorded
so far. -/
def ladderStepF (engine : Engine) (chunker : Chunker) (extract : Extractor)
    (now : String) (store : Store) (db : Option DB) (query : String)
    (uidStr : String) (group_list : List String) (secure_filter : QFilter)
    (limit : Nat) (atts : List SearchAttempt) (ids : List Int) (uid : Int) :
    RagResult :=
  match db with
  | none => ⟨[], atts, none⟩
  | some rows =>
      if ids.isEmpty then ⟨[], atts, none⟩
      else
        let st := ladderReindex chunker extract now rows store ids uid
        if st.2.2 then
          let tF := try_search engine st.2.1 query "F:post-reindex"
            secure_filter 30 (Rat.mk' 3 10) uidStr group_list limit
          ⟨tF.kept, atts ++ [tF.attempt], none⟩
        else ⟨[], atts, none⟩

/-- Ladder step E2 (filename-constrained search), falling through to F. -/
def ladderStepE2 (engine : Engine) (chunker : Chunker) (extract : Extractor)
    (now : String) (store : Store) (db : Option DB) (query : String)
    (uidStr : String) (group_list : List String) (secure_filter : QFilter)
    (limit : Nat) (atts : List SearchAttempt) (ids : List Int)
    (fns : List (Option String)) (uid : Int) : RagResult :=
  if fns.isEmpty then
    ladderStepF engine chunker extract now store db query uidStr group_list
      secure_filter limit atts ids uid
  else
    let fname_filter := should_filenames_filter fns
    let user_filter := build_user_or_group_filter (.pint uid) group_list
    let qf : QFilter := ⟨[.nested fname_filter.must fname_filter.should],
      user_filter.should⟩
    let tE2 := try_search engine store query "E2:filename filter" qf 30
      (Rat.mk' 3 10) uidStr group_list limit
    if !tE2.kept.isEmpty then ⟨tE2.kept, atts ++ [tE2.attempt], none⟩
    else
      ladderStepF engine chunker extract now store db query uidStr group_list
        secure_filter limit (atts ++ [tE2.attempt]) ids uid

/-- Ladder step E (document-id-constrained search), falling through to E2. -/
def ladderStepE (engine : Engine) (chunker : Chunker) (extract : Extractor)
    (now : String) (store : Store) (db : Option DB) (query : String)
    (uidStr : String) (group_list : List String) (secure_filter : QFilter)
    (limit : Nat) (atts : List SearchAttempt) (ids : List Int)
    (fns : List (Option String)) (uid : Int) : RagResult :=
  if ids.isEmpty then
    ladderStepE2 engine chunker extract now store db query uidStr group_list
      secure_filter limit atts ids fns uid
  else
    let doc_filter := must_document_ids_filter (ids.map .pint)
    let user_filter := build_user_or_group_filter (.pint uid) group_list
    let qf : QFilter := ⟨[.nested doc_filter.must doc_filter.should],
      user_filter.should⟩
    let tE := try_search engine store query "E:doc_id filter" qf 30
      (Rat.mk' 3 10) uidStr group_list limit
    if !tE.kept.isEmpty then ⟨tE.kept, atts ++ [tE.attempt], none⟩
    else
      ladderStepE2 engine chunker extract now store db query uidStr group_list
        secure_filter limit (atts ++ [tE.attempt]) ids fns uid

/-- `rag_search_retry`: the resilient retry ladder A) strict owner-or-group,
B) wide recall, C) owner-only, D) DB filename probe, E/E2) id- and
filename-constrained, F) reindex-and-retry; each `_try_search` records one
attempt and the ladder returns at the first non-empty kept list.  A
normalization failure is the caught-exception path. -/
def rag_search_retry (engine : Engine) (chunker : Chunker)
    (extract : Extractor) (now : String) (store : Store) (db : Option DB)
    (query : String) (user_id : PValue) (roles : List String)
    (preferred_doc_terms : List String)
    (min_similarity : ℚ := Rat.mk' 3 5) (limit : Nat := 5) : RagResult :=
  match normalize_user_id user_id with
  | .error e => ⟨[], [], some e⟩
  | .ok uid =>
      let uidStr := toString uid
      let group_list := access_groups_from_roles roles
      let secure_filter := build_user_or_group_filter (.pint uid) group_list
      let tA := try_search engine store query "A:user+groups" secure_filter
        (max (3 * limit) limit) min_similarity uidStr group_list limit
      if !tA.kept.isEmpty then ⟨tA.kept, [tA.attempt], none⟩ else
      let tB := try_search engine store query "B:user+groups wide"
        secure_filter 20 (Rat.mk' 2 5) uidStr group_list limit
      if !tB.kept.isEmpty then ⟨tB.kept, [tA.attempt, tB.attempt], none⟩ else
      let tC := try_search engine store query "C:user only"
        (build_user_or_group_filter (.pint uid) []) 20 (Rat.mk' 7 20) uidStr
        group_list limit
      if !tC.kept.isEmpty then
        ⟨tC.kept, [tA.attempt, tB.attempt, tC.attempt], none⟩
      else
        let cands := ladderProbe db query preferred_doc_terms uid group_list
        ladderStepE engine chunker extract now store db query uidStr
          group_list secure_filter limit [tA.attempt, tB.attempt, tC.attempt]
          cands.1 cands.2 uid

-- ---------------------------------------------------------------------------
-- `search_documents_with_access`
-- ---------------------------------------------------------------------------

/-- Result dictionary of `search_documents_with_access`. -/
structure SwaResult where
  results : List SearchResult
  total_found : Nat
  raw_count : Nat
  kept_count : Nat
  min_similarity : ℚ
  granted_groups : List String
  roles : List String
  error : Option String := none
deriving DecidableEq

/-- The strict per-hit check of `search_documents_with_access`:
`(doc.metadata or {}).get("group_tag") in allowed_groups`.  Only the
current `group_tag` spelling is consulted and ownership plays no part. -/
def swaGroupOk (allowed : List String) (meta : Payload) : Bool :=
  match payloadGet meta "group_tag" with
  | some (.pstr s) => allowed.contains s
  | _ => false

/-- Step A kept-loop of `search_documents_with_access`: keep hits whose
`group_tag` is allowed and whose score meets the floor, breaking after
`limit` kept results. -/
def swaKeepA (allowed : List String) (limit : Nat) (minSim : ℚ) :
    Nat → List (Chunk × ℚ) → List SearchResult
  | _, [] => []
  | count, (doc, score) :: rest =>
      if swaGroupOk allowed doc.metadata && keep_similarity score minSim then
        let r : SearchResult := ⟨doc.page_content, score, doc.metadata⟩
        if limit ≤ count + 1 then [r]
        else r :: swaKeepA allowed limit minSim (count + 1) rest
      else swaKeepA allowed limit minSim count rest

/-- Step B kept-loop of `search_documents_with_access`: top up the kept
list from the wide query, skipping duplicates, stopping at `limit`. -/
def swaKeepB (allowed : List String) (limit : Nat) (wideMin : ℚ) :
    List SearchResult → List (Chunk × ℚ) → List SearchResult
  | kept, [] => kept
  | kept, (doc, score) :: rest =>
      if limit ≤ kept.length then kept
      else if swaGroupOk allowed doc.metadata &&
          keep_similarity score wideMin then
        let r : SearchResult := ⟨doc.page_content, score, doc.metadata⟩
        let kept' := if kept.contains r then kept else kept ++ [r]
        swaKeepB allowed limit wideMin kept' rest
      else swaKeepB allowed limit wideMin kept rest

/-- `search_documents_with_access`: resolve roles to allowed groups, run
the strict group filter (step A), optionally top up with a wide query under
the same filter (step B); every kept hit must carry an allowed
`group_tag`.  A normalization failure is the caught-exception path. -/
def search_documents_with_access (engine : Engine) (store : Store)
    (query : String) (user_id : PValue) (roles : List String)
    (use_user_scope : Bool := false) (limit : Nat := 5)
    (min_similarity : ℚ := Rat.mk' 3 5) : SwaResult :=
  match normalize_user_id user_id with
  | .error e => ⟨[], 0, 0, 0, min_similarity, [], [], some e⟩
  | .ok uid =>
      let role_list := collect_roles roles
      let allowed_groups := access_groups_from_roles role_list
      let qfilter := strict_access_filter allowed_groups (some (.pint uid))
        use_user_scope
      let strict_k := max (3 * limit) limit
      let raw := engine store query qfilter strict_k
      let kept := swaKeepA allowed_groups limit min_similarity 0 raw
      let kept2 :=
        if kept.length < limit then
          let wide_k := max 20 (4 * limit)
          let wide_min := min (Rat.mk' 2 5) min_similarity
          let raw_wide := engine store query qfilter wide_k
          swaKeepB allowed_groups limit wide_min kept raw_wide
        else kept
      ⟨kept2, kept2.length, raw.length, kept2.length, min_similarity,
        allowed_groups, role_list, none⟩

-- ---------------------------------------------------------------------------
-- Concrete fixtures used by the witness theorems
-- ---------------------------------------------------------------------------

/-- A concrete chunk point as `index_text` writes it (no header, group
"invoice"), used to witness the deny-all theorem. -/
def denyAllWitnessPoint : Point :=
  ⟨"hello",
   [("metadata.user_id", .pstr "7"), ("metadata.document_id", .pstr "1"),
    ("metadata.chunk_index", .pint 0), ("metadata.created_at", .pstr "T"),
    ("metadata.filename", .pstr "f.pdf"), ("metadata.source", .pstr "f.pdf"),
    ("metadata.group_tag", .pstr "invoice"),
    ("metadata.group", .pstr "invoice")]⟩

/-- A two-hit raw list (both hits owned by user "1") used in C6 facts. -/
def c6RawList : List (Chunk × ℚ) :=
  [(⟨"t1", [("user_id", .pstr "1")]⟩, Rat.mk' 9 10),
   (⟨"t2", [("user_id", .pstr "1")]⟩, Rat.mk' 4 5)]

/-- The engine used to witness C10: the requester's own ungrouped chunk
scores higher than an allowed-group chunk. -/
def swaWitnessEngine : Engine :=
  fun _ _ _ _ => [(⟨"mine", [("user_id", .pstr "1")]⟩, Rat.mk' 19 20),
                  (⟨"inv", [("user_id", .pstr "1"),
                            ("group_tag", .pstr "invoice")]⟩, Rat.mk' 7 10)]

/-- The §8 scenario engine: a forbidden-group chunk (owner B, group
"salary") scores higher than the requester's own allowed-group chunk
(owner A = "1", group "shipping_order"). -/
def scenarioEngine : Engine :=
  fun _ _ _ _ =>
    [(⟨"Shipment notes...",
       [("user_id", .pstr "2"), ("group_tag", .pstr "salary")]⟩, Rat.mk' 9 10),
     (⟨"Shipment #4 contents...",
       [("user_id", .pstr "1"), ("group_tag", .pstr "shipping_order")]⟩,
      Rat.mk' 4 5)]

/-- A concrete owned document row used to witness idempotent reprocessing. -/
def c9Row : DocRow :=
  ⟨1, some "f.pdf", some "f.pdf", 7, some "invoice", some "hello world",
   none, true, 0, "completed", none, 5⟩

-- ---------------------------------------------------------------------------
-- Lemmas about filter satisfaction
-- ---------------------------------------------------------------------------

lemma condsAny_of_mem {p : Payload} {c : Cond} {cs : List Cond}
    (hm : c ∈ cs) (hc : condSat p c = true) : condsAny p cs = true := by
  induction cs with
  | nil => cases hm
  | cons d ds ih =>
      rcases List.mem_cons.mp hm with h | h
      · subst h; simp [condsAny, hc]
      · simp [condsAny, ih h]

lemma filterSat_should_intro {p : Payload} {c : Cond} {should : List Cond}
    (hm : c ∈ should) (hc : condSat p c = true) :
    filterSat ⟨[], should⟩ p = true := by
  have hne : should.isEmpty = false := by
    cases should with
    | nil => cases hm
    | cons _ _ => rfl
  simp [filterSat, condSat, condsAll, hne, condsAny_of_mem hm hc]

lemma mem_orderedInsertStr {b a : String} {l : List String} :
    b ∈ orderedInsertStr a l ↔ b = a ∨ b ∈ l := by
  induction l with
  | nil => simp [orderedInsertStr]
  | cons c cs ih =>
      by_cases h : strLe a c = true
      · simp [orderedInsertStr, h, List.mem_cons]
      · simp only [orderedInsertStr, if_neg h, List.mem_cons, ih]
        tauto

lemma mem_sortStrings {b : String} {l : List String} :
    b ∈ sortStrings l ↔ b ∈ l := by
  induction l with
  | nil => simp [sortStrings]
  | cons c cs ih =>
      simp only [sortStrings, mem_orderedInsertStr, ih, List.mem_cons]

-- ---------------------------------------------------------------------------
-- C7: known groups and upload-time validation
-- ---------------------------------------------------------------------------

/-- C7 (counterexample): the claim asserts the Access Policy Table's known
groups include "resume"; the code's `ALL_GROUPS` does not contain it, so
the claimed nine-element known-group set is wrong. -/
theorem known_groups_counterexample :
    "resume" ∉ ALL_GROUPS ∧
    "resume" ∈ ["invoice", "salary", "purchase_order", "inventory",
      "employee", "network", "infra", "shipping_order", "resume"] ∧
    ALL_GROUPS.length = 8 := by
  refine ⟨by decide, by decide, by decide⟩

/-- C7 (amended): the known groups are exactly the union of the role
group-sets — the eight groups employee, infra, inventory, invoice, network,
purchase_order, salary, shipping_order (no "resume") — and the upload
validation rejects `group_tag="secret"` with a descriptive error listing
exactly the valid tags. -/
theorem known_groups_amended :
    (∀ g : String, g ∈ ALL_GROUPS ↔ ∃ p ∈ ROLE_ACCESS, g ∈ p.2) ∧
    ALL_GROUPS = ["employee", "infra", "inventory", "invoice", "network",
      "purchase_order", "salary", "shipping_order"] ∧
    upload_group_tag_check "secret" =
      .error ("Invalid group_tag 'secret'. Allowed: employee, infra, " ++
        "inventory, invoice, network, purchase_order, salary, shipping_order") := by
  refine ⟨fun g => ?_, by decide, by rfl⟩
  constructor
  · intro hg
    have : g ∈ (ROLE_ACCESS.map Prod.snd).flatten := by
      have h1 : g ∈ (ROLE_ACCESS.map Prod.snd).flatten.dedup :=
        (mem_sortStrings).mp hg
      exact List.mem_dedup.mp h1
    rcases List.mem_flatten.mp this with ⟨l, hl, hgl⟩
    rcases List.mem_map.mp hl with ⟨pr, hpr, rfl⟩
    exact ⟨pr, hpr, hgl⟩
  · rintro ⟨pr, hpr, hg⟩
    have : g ∈ (ROLE_ACCESS.map Prod.snd).flatten :=
      List.mem_flatten.mpr ⟨pr.2, List.mem_map.mpr ⟨pr, hpr, rfl⟩, hg⟩
    exact (mem_sortStrings).mpr (List.mem_dedup.mpr this)

-- ---------------------------------------------------------------------------
-- C3: dual-spelling completeness of the filter builders
-- ---------------------------------------------------------------------------

/-- C3 (counterexample): the strict group filter does NOT emit the legacy
`group` spelling — a chunk whose group is stored only under
`metadata.group` does not satisfy `_strict_access_filter(["invoice"])`,
while the same group under `metadata.group_tag` does.  So not every filter
produced by the builders covers both spellings. -/
theorem filter_dual_spelling_counterexample :
    filterSat (strict_access_filter ["invoice"] none false)
      [("metadata.group", .pstr "invoice")] = false ∧
    filterSat (strict_access_filter ["invoice"] none false)
      [("metadata.group_tag", .pstr "invoice")] = true := by
  refine ⟨by decide, by decide⟩

lemma build_filter_of_mem_should {u : PValue} {groups : List String}
    {c : Cond} {p : Payload}
    (hm : c ∈ uogUserConds u ++ uogGroupConds groups)
    (hc : condSat p c = true) :
    filterSat (build_user_or_group_filter u groups) p = true := by
  have hne : (uogUserConds u ++ uogGroupConds groups).isEmpty = false := by
    cases h : uogUserConds u ++ uogGroupConds groups with
    | nil => rw [h] at hm; cases hm
    | cons _ _ => rfl
  unfold build_user_or_group_filter
  simp only [hne, Bool.false_eq_true, if_false, if_neg]
  exact filterSat_should_intro hm hc

/-- C3 (amended): `_build_user_or_group_filter` does emit predicates for
both key spellings — a chunk carrying any of the four group spellings with
an allowed non-blank group matches, as does a chunk carrying the owner id
under any of the probed field names, nested or top-level, as str or int —
but `_strict_access_filter` consults only the current nested
`metadata.group_tag` (and `metadata.user_id`) spelling: a chunk it matches
must carry an allowed group under `metadata.group_tag` itself. -/
theorem filter_dual_spelling_amended :
    (∀ (u : PValue) (groups : List String) (g k : String) (p : Payload),
      g ∈ groups → g ≠ "" → pyStrip g ≠ "" → k ∈ groupKeySpellings →
      payloadGet p k = some (.pstr g) →
      filterSat (build_user_or_group_filter u groups) p = true) ∧
    (∀ (u : PValue) (groups : List String) (uf : String) (v : PValue)
      (p : Payload),
      uf ∈ userFieldNames → v ∈ as_str_int_variants u →
      (payloadGet p ("metadata." ++ uf) = some v ∨ payloadGet p uf = some v) →
      filterSat (build_user_or_group_filter u groups) p = true) ∧
    (∀ (gs : List String) (u : Option PValue) (sc : Bool) (p : Payload),
      gs ≠ [] → filterSat (strict_access_filter gs u sc) p = true →
      ∃ s, payloadGet p "metadata.group_tag" = some (.pstr s) ∧ s ∈ gs) := by
  refine ⟨?_, ?_, ?_⟩
  · intro u groups g k p hg hne htrim hk hget
    have hval : g ∈ groups.filter (fun x => x ≠ "" && pyStrip x ≠ "") :=
      List.mem_filter.mpr ⟨hg, by simp [hne, htrim]⟩
    have hmem : Cond.field k (.value (.pstr g)) ∈ uogGroupConds groups := by
      unfold uogGroupConds
      exact List.mem_flatMap.mpr ⟨g, hval,
        List.mem_map.mpr ⟨k, hk, rfl⟩⟩
    refine build_filter_of_mem_should (List.mem_append_right _ hmem) ?_
    simp [condSat, hget, matchCondSat]
  · intro u groups uf v p huf hv hget
    rcases hget with hget | hget
    · have hmem : Cond.field ("metadata." ++ uf) (.value v) ∈ uogUserConds u := by
        unfold uogUserConds
        exact List.mem_flatMap.mpr ⟨uf, huf,
          List.mem_flatMap.mpr ⟨v, hv, by simp⟩⟩
      refine build_filter_of_mem_should (List.mem_append_left _ hmem) ?_
      simp [condSat, hget, matchCondSat]
    · have hmem : Cond.field uf (.value v) ∈ uogUserConds u := by
        unfold uogUserConds
        exact List.mem_flatMap.mpr ⟨uf, huf,
          List.mem_flatMap.mpr ⟨v, hv, by simp⟩⟩
      refine build_filter_of_mem_should (List.mem_append_left _ hmem) ?_
      simp [condSat, hget, matchCondSat]
  · intro gs u sc p hne hsat
    unfold strict_access_filter at hsat
    rw [if_neg hne] at hsat
    simp only [filterSat, condSat, condsAll, Bool.and_eq_true] at hsat
    have hhead := hsat.1.1
    cases hv : payloadGet p "metadata.group_tag" with
    | none => rw [hv] at hhead; simp [condSat] at hhead
    | some v =>
        rw [hv] at hhead
        simp only [condSat, hv] at hhead
        cases v with
        | pstr s =>
            refine ⟨s, rfl, ?_⟩
            simp only [matchCondSat] at hhead
            exact List.mem_of_elem_eq_true hhead
        | pint n => simp [matchCondSat] at hhead

/-- C3 (witness): the amended dual-spelling facts at concrete inputs. -/
theorem filter_dual_spelling_amended_witness :
    filterSat (build_user_or_group_filter (.pint 1) ["invoice"])
      [("group", .pstr "invoice")] = true ∧
    filterSat (build_user_or_group_filter (.pint 1) ["invoice"])
      [("owner_id", .pint 1)] = true ∧
    ∃ s, payloadGet [("metadata.group_tag", .pstr "salary")]
        "metadata.group_tag" = some (.pstr s) ∧ s ∈ ["salary", "invoice"] :=
  ⟨filter_dual_spelling_amended.1 (.pint 1) ["invoice"] "invoice" "group" _
      (by decide) (by decide) (by decide) (by decide) (by rfl),
   filter_dual_spelling_amended.2.1 (.pint 1) ["invoice"] "owner_id" (.pint 1) _
      (by decide) (by decide) (Or.inr (by rfl)),
   filter_dual_spelling_amended.2.2 ["salary", "invoice"] none false _
      (by decide) (by decide)⟩

-- ---------------------------------------------------------------------------
-- C2: the empty-permission strict filter is deny-all
-- ---------------------------------------------------------------------------

lemma payloadGet_append (p q : Payload) (k : String) :
    payloadGet (p ++ q) k =
      (match payloadGet p k with
       | some v => some v
       | none => payloadGet q k) := by
  unfold payloadGet
  rw [List.find?_append]
  cases List.find? (fun kv => kv.1 = k) p <;> simp

lemma nestMeta_append (p q : Payload) :
    nestMeta (p ++ q) = nestMeta p ++ nestMeta q :=
  List.map_append _ p q

/-- Where the constructed point payload stores the group: only under
`metadata.group_tag` (and `metadata.group`), only for truthy tags. -/
lemma payloadGet_nestMeta_group_tag (uidStr docIdStr : String) (idx : Nat)
    (now : String) (fn gt : Option String) :
    payloadGet (nestMeta (indexChunkMeta uidStr docIdStr idx now fn gt))
      "metadata.group_tag" =
      (match gt with
       | some g => if g ≠ "" then some (.pstr g) else none
       | none => none) := by
  unfold indexChunkMeta
  rw [nestMeta_append, nestMeta_append, payloadGet_append, payloadGet_append]
  have hbase : payloadGet (nestMeta
      ([("user_id", PValue.pstr uidStr), ("document_id", PValue.pstr docIdStr),
        ("chunk_index", PValue.pint (Int.ofNat idx)),
        ("created_at", PValue.pstr now)] : List (String × PValue)))
      "metadata.group_tag" = none := rfl
  rw [hbase]
  have hfn : payloadGet (nestMeta
      ((match fn with
        | some f => if f ≠ "" then
            [("filename", PValue.pstr f), ("source", PValue.pstr f)] else []
        | none => []) : List (String × PValue))) "metadata.group_tag" = none := by
    cases fn with
    | none => rfl
    | some f =>
        dsimp only
        by_cases hf : f ≠ ""
        · rw [if_pos hf]; rfl
        · rw [if_neg hf]; rfl
  rw [hfn]
  cases gt with
  | none => rfl
  | some g =>
      dsimp only
      by_cases hg : g ≠ ""
      · rw [if_pos hg, if_pos hg]; rfl
      · rw [if_neg hg, if_neg hg]; rfl

lemma all_groups_not_sentinel :
    ∀ g ∈ ALL_GROUPS, g ≠ "__NO_ACCESS__" ∧ g ≠ "" := by decide

/-- C2: with an empty allowed-group set the strict access filter is
unsatisfiable by construction — any payload satisfying it would have to
carry the sentinel `"__NO_ACCESS__"` under `metadata.group_tag` — and no
chunk written by `index_text` under a validated (or absent) group tag
satisfies it, for any user id and scope flag.  An empty permission set is
never "no restriction". -/
theorem strict_filter_empty_deny_all :
    (∀ (u : Option PValue) (sc : Bool) (p : Payload),
      filterSat (strict_access_filter [] u sc) p = true →
      payloadGet p "metadata.group_tag" = some (.pstr "__NO_ACCESS__")) ∧
    (∀ (chunker : Chunker) (text : String) (uid : Int) (did : PValue)
      (gt fn : Option String) (cs co : Nat) (hdr : Bool) (now : String)
      (u : Option PValue) (sc : Bool) (pt : Point),
      (∀ g, gt = some g → g ∈ ALL_GROUPS) →
      pt ∈ indexDocs chunker text uid did gt fn cs co hdr now →
      filterSat (strict_access_filter [] u sc) pt.payload = false) := by
  constructor
  · intro u sc p hsat
    unfold strict_access_filter at hsat
    rw [if_pos rfl] at hsat
    simp only [filterSat, condSat, condsAll, Bool.and_eq_true] at hsat
    have hhead := hsat.1.1
    cases hv : payloadGet p "metadata.group_tag" with
    | none => rw [hv] at hhead; simp at hhead
    | some v =>
        rw [hv] at hhead
        simp only [matchCondSat, decide_eq_true_eq] at hhead
        rw [hhead]
  · intro chunker text uid did gt fn cs co hdr now u sc pt hval hmem
    unfold indexDocs at hmem
    rcases List.mem_filterMap.mp hmem with ⟨ic, _, hic⟩
    by_cases hblank : pyStrip ic.2 = ""
    · rw [if_pos hblank] at hic; cases hic
    · rw [if_neg hblank] at hic
      have hpay : pt.payload = nestMeta (indexChunkMeta (toString uid)
          (normalize_document_id did) ic.1 now fn gt) := by
        cases hic; rfl
      unfold strict_access_filter
      rw [if_pos rfl]
      simp only [filterSat, condSat, condsAll, hpay,
        payloadGet_nestMeta_group_tag]
      cases gt with
      | none => rfl
      | some g =>
          have hg := all_groups_not_sentinel g (hval g rfl)
          dsimp only
          rw [if_pos hg.2]
          simp [matchCondSat, hg.1]

/-- C2 (witness): the deny-all facts evaluated at a concrete payload and a
concrete indexed chunk. -/
theorem strict_filter_empty_deny_all_witness :
    payloadGet [("metadata.group_tag", PValue.pstr "__NO_ACCESS__")]
      "metadata.group_tag" = some (.pstr "__NO_ACCESS__") ∧
    filterSat (strict_access_filter [] none false)
      denyAllWitnessPoint.payload = false :=
  ⟨strict_filter_empty_deny_all.1 none false
      [("metadata.group_tag", PValue.pstr "__NO_ACCESS__")] (by decide),
   strict_filter_empty_deny_all.2 (fun t _ _ => [t]) "hello" 7 (.pint 1)
      (some "invoice") (some "f.pdf") 1200 200 false "T" none false
      denyAllWitnessPoint (by intro g hg; cases hg; decide) (by decide)⟩

-- ---------------------------------------------------------------------------
-- Lemmas about the kept-result loops
-- ---------------------------------------------------------------------------

lemma collectKeptAux_length (uidStr : String) (groups : List String)
    (limit : Nat) (minSim : ℚ) :
    ∀ (raw : List (Chunk × ℚ)) (count : Nat), count < limit →
      (collectKeptAux uidStr groups limit minSim count raw).length ≤
        limit - count := by
  intro raw
  induction raw with
  | nil => intro count h; simp [collectKeptAux]
  | cons hd tl ih =>
      intro count hcount
      obtain ⟨doc, score⟩ := hd
      unfold collectKeptAux
      split_ifs with h1 h2 h3 h4 h5
      · exact ih count hcount
      · simp; omega
      · have h' : count + 1 < limit := by omega
        have := ih (count + 1) h'
        simp only [List.length_cons]
        omega
      · simp; omega
      · have h' : count + 1 < limit := by omega
        have := ih (count + 1) h'
        simp only [List.length_cons]
        omega
      · exact ih count hcount

lemma collectKeptAux_score (uidStr : String) (groups : List String)
    (limit : Nat) (minSim : ℚ) :
    ∀ (raw : List (Chunk × ℚ)) (count : Nat) (r : SearchResult),
      r ∈ collectKeptAux uidStr groups limit minSim count raw →
      minSim ≤ r.score := by
  intro raw
  induction raw with
  | nil => intro count r h; cases h
  | cons hd tl ih =>
      intro count r hmem
      obtain ⟨doc, score⟩ := hd
      unfold collectKeptAux at hmem
      split_ifs at hmem with h1 h2 h3 h4 h5
      · exact ih count r hmem
      · rcases List.mem_singleton.mp hmem with rfl
        simpa [keep_similarity] using h1
      · rcases List.mem_cons.mp hmem with rfl | hmem'
        · simpa [keep_similarity] using h1
        · exact ih (count + 1) r hmem'
      · rcases List.mem_singleton.mp hmem with rfl
        simpa [keep_similarity] using h1
      · rcases List.mem_cons.mp hmem with rfl | hmem'
        · simpa [keep_similarity] using h1
        · exact ih (count + 1) r hmem'
      · exact ih count r hmem

lemma collectKeptAux_sublist (uidStr : String) (groups : List String)
    (limit : Nat) (minSim : ℚ) :
    ∀ (raw : List (Chunk × ℚ)) (count : Nat),
      List.Sublist (collectKeptAux uidStr groups limit minSim count raw)
        (raw.map (fun ds => (⟨ds.1.page_content, ds.2, ds.1.metadata⟩ :
          SearchResult))) := by
  intro raw
  induction raw with
  | nil => intro count; simp [collectKeptAux]
  | cons hd tl ih =>
      intro count
      obtain ⟨doc, score⟩ := hd
      unfold collectKeptAux
      split_ifs with h1 h2 h3 h4 h5
      · exact List.Sublist.cons _ (ih count)
      · simp only [List.map_cons]
        exact List.Sublist.cons₂ _ (List.nil_sublist _)
      · simp only [List.map_cons]
        exact List.Sublist.cons₂ _ (ih (count + 1))
      · simp only [List.map_cons]
        exact List.Sublist.cons₂ _ (List.nil_sublist _)
      · simp only [List.map_cons]
        exact List.Sublist.cons₂ _ (ih (count + 1))
      · exact List.Sublist.cons _ (ih count)

lemma collectKeptAux_access (uidStr : String) (groups : List String)
    (limit : Nat) (minSim : ℚ) :
    ∀ (raw : List (Chunk × ℚ)) (count : Nat) (r : SearchResult),
      r ∈ collectKeptAux uidStr groups limit minSim count raw →
      ownerAccessOk uidStr r.metadata = true ∨
      groupAccessOk groups r.metadata = true := by
  intro raw
  induction raw with
  | nil => intro count r h; cases h
  | cons hd tl ih =>
      intro count r hmem
      obtain ⟨doc, score⟩ := hd
      unfold collectKeptAux at hmem
      split_ifs at hmem with h1 h2 h3 h4 h5
      · exact ih count r hmem
      · rcases List.mem_singleton.mp hmem with rfl
        exact Or.inl h2
      · rcases List.mem_cons.mp hmem with rfl | hmem'
        · exact Or.inl h2
        · exact ih (count + 1) r hmem'
      · rcases List.mem_singleton.mp hmem with rfl
        exact Or.inr h4
      · rcases List.mem_cons.mp hmem with rfl | hmem'
        · exact Or.inr h4
        · exact ih (count + 1) r hmem'
      · exact ih count r hmem

lemma swaKeepA_length (allowed : List String) (limit : Nat) (minSim : ℚ) :
    ∀ (raw : List (Chunk × ℚ)) (count : Nat), count < limit →
      (swaKeepA allowed limit minSim count raw).length ≤ limit - count := by
  intro raw
  induction raw with
  | nil => intro count h; simp [swaKeepA]
  | cons hd tl ih =>
      intro count hcount
      obtain ⟨doc, score⟩ := hd
      unfold swaKeepA
      split_ifs with h1 h2
      · simp; omega
      · have h' : count + 1 < limit := by omega
        have := ih (count + 1) h'
        simp only [List.length_cons]
        omega
      · exact ih count hcount

lemma swaKeepA_score (allowed : List String) (limit : Nat) (minSim : ℚ) :
    ∀ (raw : List (Chunk × ℚ)) (count : Nat) (r : SearchResult),
      r ∈ swaKeepA allowed limit minSim count raw → minSim ≤ r.score := by
  intro raw
  induction raw with
  | nil => intro count r h; cases h
  | cons hd tl ih =>
      intro count r hmem
      obtain ⟨doc, score⟩ := hd
      unfold swaKeepA at hmem
      split_ifs at hmem with h1 h2
      · rcases List.mem_singleton.mp hmem with rfl
        have := ((Bool.and_eq_true _ _).mp h1).2
        simpa [keep_similarity] using this
      · rcases List.mem_cons.mp hmem with rfl | hmem'
        · have := ((Bool.and_eq_true _ _).mp h1).2
          simpa [keep_similarity] using this
        · exact ih (count + 1) r hmem'
      · exact ih count r hmem

lemma swaKeepA_sublist (allowed : List String) (limit : Nat) (minSim : ℚ) :
    ∀ (raw : List (Chunk × ℚ)) (count : Nat),
      List.Sublist (swaKeepA allowed limit minSim count raw)
        (raw.map (fun ds => (⟨ds.1.page_content, ds.2, ds.1.metadata⟩ :
          SearchResult))) := by
  intro raw
  induction raw with
  | nil => intro count; simp [swaKeepA]
  | cons hd tl ih =>
      intro count
      obtain ⟨doc, score⟩ := hd
      unfold swaKeepA
      split_ifs with h1 h2
      · simp only [List.map_cons]
        exact List.Sublist.cons₂ _ (List.nil_sublist _)
      · simp only [List.map_cons]
        exact List.Sublist.cons₂ _ (ih (count + 1))
      · exact List.Sublist.cons _ (ih count)

lemma swaKeepA_group (allowed : List String) (limit : Nat) (minSim : ℚ) :
    ∀ (raw : List (Chunk × ℚ)) (count : Nat) (r : SearchResult),
      r ∈ swaKeepA allowed limit minSim count raw →
      swaGroupOk allowed r.metadata = true := by
  intro raw
  induction raw with
  | nil => intro count r h; cases h
  | cons hd tl ih =>
      intro count r hmem
      obtain ⟨doc, score⟩ := hd
      unfold swaKeepA at hmem
      split_ifs at hmem with h1 h2
      · rcases List.mem_singleton.mp hmem with rfl
        exact ((Bool.and_eq_true _ _).mp h1).1
      · rcases List.mem_cons.mp hmem with rfl | hmem'
        · exact ((Bool.and_eq_true _ _).mp h1).1
        · exact ih (count + 1) r hmem'
      · exact ih count r hmem

lemma swaKeepB_mem (allowed : List String) (limit : Nat) (wideMin : ℚ) :
    ∀ (raw : List (Chunk × ℚ)) (kept : List SearchResult) (r : SearchResult),
      r ∈ swaKeepB allowed limit wideMin kept raw →
      r ∈ kept ∨ swaGroupOk allowed r.metadata = true := by
  intro raw
  induction raw with
  | nil => intro kept r h; exact Or.inl h
  | cons hd tl ih =>
      intro kept r hmem
      obtain ⟨doc, score⟩ := hd
      unfold swaKeepB at hmem
      dsimp only at hmem
      split_ifs at hmem with h1 h2 h3
      · exact Or.inl hmem
      · exact ih kept r hmem
      · rcases ih _ r hmem with hk | hg
        · rcases List.mem_append.mp hk with hk' | hk'
          · exact Or.inl hk'
          · rcases List.mem_singleton.mp hk' with rfl
            exact Or.inr ((Bool.and_eq_true _ _).mp h2).1
        · exact Or.inr hg
      · exact ih kept r hmem

-- ---------------------------------------------------------------------------
-- C6: per-step result discipline
-- ---------------------------------------------------------------------------

/-- C6 (counterexample): with `limit = 0` both kept-loops still keep one
qualifying hit, because the break is checked only after an append — so "at
most `limit` entries" fails at limit zero. -/
theorem search_step_limit_counterexample :
    ¬ ((collectKept "1" [] 0 (Rat.mk' 1 2)
        [(⟨"t", [("user_id", .pstr "1")]⟩, 1)]).length ≤ 0) ∧
    ¬ ((swaKeepA ["invoice"] 0 (Rat.mk' 1 2) 0
        [(⟨"t", [("group_tag", .pstr "invoice")]⟩, 1)]).length ≤ 0) :=
  ⟨by decide, by decide⟩

/-- C6 (amended): for every search step with a positive limit, the kept
list has at most `limit` entries; every kept entry's score meets the step's
floor under greater-or-equal comparison; and the kept list is a sublist of
the raw hit list as returned by the index (descending-similarity order is
preserved).  This holds for the ladder's `_try_search` loop and for step A
of `search_documents_with_access`. -/
theorem search_step_discipline_amended :
    (∀ (uidStr : String) (groups : List String) (limit : Nat) (minSim : ℚ)
       (raw : List (Chunk × ℚ)), 0 < limit →
      (collectKept uidStr groups limit minSim raw).length ≤ limit) ∧
    (∀ (uidStr : String) (groups : List String) (limit : Nat) (minSim : ℚ)
       (raw : List (Chunk × ℚ)) (r : SearchResult),
      r ∈ collectKept uidStr groups limit minSim raw → minSim ≤ r.score) ∧
    (∀ (uidStr : String) (groups : List String) (limit : Nat) (minSim : ℚ)
       (raw : List (Chunk × ℚ)),
      List.Sublist (collectKept uidStr groups limit minSim raw)
        (raw.map (fun ds => (⟨ds.1.page_content, ds.2, ds.1.metadata⟩ :
          SearchResult)))) ∧
    (∀ (allowed : List String) (limit : Nat) (minSim : ℚ)
       (raw : List (Chunk × ℚ)), 0 < limit →
      (swaKeepA allowed limit minSim 0 raw).length ≤ limit) ∧
    (∀ (allowed : List String) (limit : Nat) (minSim : ℚ)
       (raw : List (Chunk × ℚ)) (r : SearchResult),
      r ∈ swaKeepA allowed limit minSim 0 raw → minSim ≤ r.score) ∧
    (∀ (allowed : List String) (limit : Nat) (minSim : ℚ)
       (raw : List (Chunk × ℚ)),
      List.Sublist (swaKeepA allowed limit minSim 0 raw)
        (raw.map (fun ds => (⟨ds.1.page_content, ds.2, ds.1.metadata⟩ :
          SearchResult)))) := by
  refine ⟨?_, ?_, ?_, ?_, ?_, ?_⟩
  · intro uidStr groups limit minSim raw hpos
    have := collectKeptAux_length uidStr groups limit minSim raw 0 hpos
    simpa [collectKept] using this
  · intro uidStr groups limit minSim raw r hmem
    exact collectKeptAux_score uidStr groups limit minSim raw 0 r hmem
  · intro uidStr groups limit minSim raw
    exact collectKeptAux_sublist uidStr groups limit minSim raw 0
  · intro allowed limit minSim raw hpos
    have := swaKeepA_length allowed limit minSim raw 0 hpos
    simpa using this
  · intro allowed limit minSim raw hmem
    exact swaKeepA_score allowed limit minSim raw 0 hmem
  · intro allowed limit minSim raw
    exact swaKeepA_sublist allowed limit minSim raw 0

/-- C6 (witness): the discipline facts evaluated at a concrete raw list
with limit 1: two qualifying hits, one kept. -/
theorem search_step_discipline_amended_witness :
    (collectKept "1" [] 1 (Rat.mk' 1 2) c6RawList).length ≤ 1 ∧
    List.Sublist (collectKept "1" [] 1 (Rat.mk' 1 2) c6RawList)
      (c6RawList.map (fun ds =>
        (⟨ds.1.page_content, ds.2, ds.1.metadata⟩ : SearchResult))) :=
  ⟨search_step_discipline_amended.1 "1" [] 1 (Rat.mk' 1 2) c6RawList (by decide),
   search_step_discipline_amended.2.2.1 "1" [] 1 (Rat.mk' 1 2) c6RawList⟩

-- ---------------------------------------------------------------------------
-- C10: the strict search admits chunks only through an allowed group_tag
-- ---------------------------------------------------------------------------

lemma swaGroupOk_spec {allowed : List String} {m : Payload}
    (h : swaGroupOk allowed m = true) :
    ∃ s, payloadGet m "group_tag" = some (.pstr s) ∧ s ∈ allowed := by
  unfold swaGroupOk at h
  cases hv : payloadGet m "group_tag" with
  | none => rw [hv] at h; cases h
  | some v =>
      rw [hv] at h
      cases v with
      | pstr s => exact ⟨s, rfl, List.mem_of_elem_eq_true h⟩
      | pint n => cases h

/-- C10 (implicit): every result kept by `search_documents_with_access`
(steps A and B alike) carries an allowed group under the current
`group_tag` metadata key; ownership alone never qualifies a chunk, so the
caller's own ungrouped chunks, chunks grouped only under the legacy
`group` key, and owner-matched chunks outside the allowed groups are never
returned by this operation. -/
theorem swa_group_only_access :
    ∀ (engine : Engine) (store : Store) (query : String) (user_id : PValue)
      (roles : List String) (sc : Bool) (limit : Nat) (minSim : ℚ)
      (r : SearchResult),
      r ∈ (search_documents_with_access engine store query user_id roles sc
        limit minSim).results →
      ∃ s, payloadGet r.metadata "group_tag" = some (.pstr s) ∧
        s ∈ access_groups_from_roles (collect_roles roles) := by
  intro engine store query user_id roles sc limit minSim r hmem
  unfold search_documents_with_access at hmem
  cases hn : normalize_user_id user_id with
  | error e => rw [hn] at hmem; cases hmem
  | ok uid =>
      rw [hn] at hmem
      dsimp only at hmem
      split_ifs at hmem with hlt
      · rcases swaKeepB_mem _ _ _ _ _ _ hmem with hk | hg
        · exact swaGroupOk_spec (swaKeepA_group _ _ _ _ _ _ hk)
        · exact swaGroupOk_spec hg
      · exact swaGroupOk_spec (swaKeepA_group _ _ _ _ _ _ hmem)

/-- C10 (witness): at the concrete engine the only returned result is the
allowed-group chunk, never the owner-only one. -/
theorem swa_group_only_access_witness :
    (∃ s, payloadGet
        ([("user_id", PValue.pstr "1"), ("group_tag", PValue.pstr "invoice")] :
          Payload) "group_tag" = some (.pstr s) ∧
        s ∈ access_groups_from_roles (collect_roles ["user"])) ∧
    (search_documents_with_access swaWitnessEngine [] "q" (.pstr "1") ["user"]
      false 5 (Rat.mk' 3 5)).results =
      [⟨"inv", Rat.mk' 7 10,
        [("user_id", .pstr "1"), ("group_tag", .pstr "invoice")]⟩] :=
  ⟨swa_group_only_access swaWitnessEngine [] "q" (.pstr "1") ["user"]
      false 5 (Rat.mk' 3 5)
      ⟨"inv", Rat.mk' 7 10,
        [("user_id", .pstr "1"), ("group_tag", .pstr "invoice")]⟩
      (by decide),
   by decide⟩

-- ---------------------------------------------------------------------------
-- C8: the search entry points never propagate exceptions
-- ---------------------------------------------------------------------------

/-- C8: both entry points are total functions of their inputs (no exception
reaches the caller), and on the one internal failure expressible in the
model — a user id string that is not a decimal number, which fails
`_normalize_user_id` — each returns a well-formed result dictionary with an
empty results list and the error message, rather than raising. -/
theorem search_entry_points_no_exception :
    ∀ (s : String), pyIsDigit s = false →
    ∀ (engine : Engine) (chunker : Chunker) (extract : Extractor)
      (now : String) (store : Store) (db : Option DB) (query : String)
      (roles : List String) (pref : List String) (ms : ℚ) (limit : Nat)
      (sc : Bool) (limit2 : Nat) (ms2 : ℚ),
      rag_search_retry engine chunker extract now store db query (.pstr s)
        roles pref ms limit =
        ⟨[], [], some ("Invalid user_id: " ++ s)⟩ ∧
      search_documents_with_access engine store query (.pstr s) roles sc
        limit2 ms2 =
        ⟨[], 0, 0, 0, ms2, [], [], some ("Invalid user_id: " ++ s)⟩ := by
  intro s hs engine chunker extract now store db query roles pref ms limit
    sc limit2 ms2
  constructor
  · simp [rag_search_retry, normalize_user_id, hs]
  · simp [search_documents_with_access, normalize_user_id, hs]

/-- C8 (witness): the degraded empty results at the concrete bad user id
"abc". -/
theorem search_entry_points_no_exception_witness :
    rag_search_retry (fun _ _ _ _ => []) (fun _ _ _ => []) (fun _ => "") "T"
      [] none "q" (.pstr "abc") [] [] (Rat.mk' 3 5) 5 =
      ⟨[], [], some "Invalid user_id: abc"⟩ ∧
    search_documents_with_access (fun _ _ _ _ => []) [] "q" (.pstr "abc") []
      false 5 (Rat.mk' 3 5) =
      ⟨[], 0, 0, 0, Rat.mk' 3 5, [], [], some "Invalid user_id: abc"⟩ :=
  search_entry_points_no_exception "abc" (by decide) (fun _ _ _ _ => [])
    (fun _ _ _ => []) (fun _ => "") "T" [] none "q" [] [] (Rat.mk' 3 5) 5
    false 5 (Rat.mk' 3 5)

-- ---------------------------------------------------------------------------
-- C1: the no-leak invariant of the retry ladder
-- ---------------------------------------------------------------------------

lemma accessOk_prop {uidStr : String} {groups : List String} {m : Payload}
    (h : ownerAccessOk uidStr m = true ∨ groupAccessOk groups m = true) :
    docUserId m = uidStr ∨
    ∃ g, docGroup m = some (.pstr g) ∧ g ∈ groups := by
  rcases h with h | h
  · left
    have := ((Bool.and_eq_true _ _).mp h).2
    simpa using this
  · right
    unfold groupAccessOk at h
    cases hv : docGroup m with
    | none => rw [hv] at h; cases h
    | some v =>
        rw [hv] at h
        cases v with
        | pstr s =>
            refine ⟨s, rfl, ?_⟩
            have := ((Bool.and_eq_true _ _).mp h).2
            exact List.mem_of_elem_eq_true this
        | pint n =>
            have := ((Bool.and_eq_true _ _).mp h).2
            cases this

lemma try_search_kept_access {engine : Engine} {store : Store}
    {query tag : String} {qfilter : QFilter} {k : Nat} {min_sim : ℚ}
    {uidStr : String} {groups : List String} {limit : Nat} {r : SearchResult}
    (h : r ∈ (try_search engine store query tag qfilter k min_sim uidStr
      groups limit).kept) :
    ownerAccessOk uidStr r.metadata = true ∨
    groupAccessOk groups r.metadata = true := by
  unfold try_search at h
  exact collectKeptAux_access uidStr groups limit min_sim _ 0 r h

lemma ladderStepF_access {engine : Engine} {chunker : Chunker}
    {extract : Extractor} {now : String} {store : Store} {db : Option DB}
    {query uidStr : String} {group_list : List String}
    {secure_filter : QFilter} {limit : Nat} {atts : List SearchAttempt}
    {ids : List Int} {uid : Int} {r : SearchResult}
    (h : r ∈ (ladderStepF engine chunker extract now store db query uidStr
      group_list secure_filter limit atts ids uid).results) :
    ownerAccessOk uidStr r.metadata = true ∨
    groupAccessOk group_list r.metadata = true := by
  unfold ladderStepF at h
  cases db with
  | none => cases h
  | some rows =>
      dsimp only at h
      split_ifs at h with h1 h2
      · cases h
      · dsimp only at h
        exact try_search_kept_access h
      · cases h

lemma ladderStepE2_access {engine : Engine} {chunker : Chunker}
    {extract : Extractor} {now : String} {store : Store} {db : Option DB}
    {query uidStr : String} {group_list : List String}
    {secure_filter : QFilter} {limit : Nat} {atts : List SearchAttempt}
    {ids : List Int} {fns : List (Option String)} {uid : Int}
    {r : SearchResult}
    (h : r ∈ (ladderStepE2 engine chunker extract now store db query uidStr
      group_list secure_filter limit atts ids fns uid).results) :
    ownerAccessOk uidStr r.metadata = true ∨
    groupAccessOk group_list r.metadata = true := by
  unfold ladderStepE2 at h
  split_ifs at h with h1
  · exact ladderStepF_access h
  · dsimp only at h
    split_ifs at h with h2
    · dsimp only at h
      exact try_search_kept_access h
    · exact ladderStepF_access h

lemma ladderStepE_access {engine : Engine} {chunker : Chunker}
    {extract : Extractor} {now : String} {store : Store} {db : Option DB}
    {query uidStr : String} {group_list : List String}
    {secure_filter : QFilter} {limit : Nat} {atts : List SearchAttempt}
    {ids : List Int} {fns : List (Option String)} {uid : Int}
    {r : SearchResult}
    (h : r ∈ (ladderStepE engine chunker extract now store db query uidStr
      group_list secure_filter limit atts ids fns uid).results) :
    ownerAccessOk uidStr r.metadata = true ∨
    groupAccessOk group_list r.metadata = true := by
  unfold ladderStepE at h
  split_ifs at h with h1
  · exact ladderStepE2_access h
  · dsimp only at h
    split_ifs at h with h2
    · dsimp only at h
      exact try_search_kept_access h
    · exact ladderStepE2_access h

/-- C1: the no-leak invariant.  For every engine behaviour, collection
state, query, user, role list and tuning parameters, every chunk in the
result list of `rag_search_retry` either carries the requesting user's id
in its `user_id` metadata, or carries a group (under `group_tag`, falling
back to the legacy `group` key) that belongs to the allowed-group set
derived from the roles via `groups_for_role` — no matter which ladder step
produced the result. -/
theorem rag_search_retry_no_leak :
    ∀ (engine : Engine) (chunker : Chunker) (extract : Extractor)
      (now : String) (store : Store) (db : Option DB) (query : String)
      (user_id : PValue) (roles : List String) (pref : List String)
      (ms : ℚ) (limit : Nat) (uid : Int),
      normalize_user_id user_id = .ok uid →
      ∀ r ∈ (rag_search_retry engine chunker extract now store db query
        user_id roles pref ms limit).results,
        docUserId r.metadata = toString uid ∨
        ∃ g, docGroup r.metadata = some (.pstr g) ∧
          g ∈ access_groups_from_roles roles := by
  intro engine chunker extract now store db query user_id roles pref ms limit
    uid hn r hmem
  unfold rag_search_retry at hmem
  rw [hn] at hmem
  dsimp only at hmem
  split_ifs at hmem with hA hB hC
  · dsimp only at hmem
    exact accessOk_prop (try_search_kept_access hmem)
  · dsimp only at hmem
    exact accessOk_prop (try_search_kept_access hmem)
  · dsimp only at hmem
    exact accessOk_prop (try_search_kept_access hmem)
  · exact accessOk_prop (ladderStepE_access hmem)

/-- C1 (witness): on the §8 scenario only the requester's own
shipping-order chunk is returned, even though the forbidden salary chunk
scored higher, and the invariant holds there by the no-leak theorem. -/
theorem rag_search_retry_no_leak_witness :
    (rag_search_retry scenarioEngine (fun _ _ _ => []) (fun _ => "") "T" []
      none "show me the shipping order" (.pstr "1") ["user"] []
      (Rat.mk' 3 5) 5).results =
      [⟨"Shipment #4 contents...", Rat.mk' 4 5,
        [("user_id", .pstr "1"), ("group_tag", .pstr "shipping_order")]⟩] ∧
    (∀ r ∈ (rag_search_retry scenarioEngine (fun _ _ _ => []) (fun _ => "")
        "T" [] none "show me the shipping order" (.pstr "1") ["user"] []
        (Rat.mk' 3 5) 5).results,
      docUserId r.metadata = toString (1 : Int) ∨
      ∃ g, docGroup r.metadata = some (.pstr g) ∧
        g ∈ access_groups_from_roles ["user"]) :=
  ⟨by decide,
   rag_search_retry_no_leak scenarioEngine (fun _ _ _ => []) (fun _ => "")
     "T" [] none "show me the shipping order" (.pstr "1") ["user"] []
     (Rat.mk' 3 5) 5 1 (by rfl)⟩

-- ---------------------------------------------------------------------------
-- C4: ladder short-circuit
-- ---------------------------------------------------------------------------

/-- C4: if the strict step A already keeps at least one result, the ladder
returns exactly that kept list with exactly one `SearchAttempt` recorded,
and no later step's search is ever consulted: two engines that agree on
the single step-A query produce identical ladder outputs, however much
they differ on every other query. -/
theorem ladder_short_circuit :
    ∀ (e1 e2 : Engine) (chunker : Chunker) (extract : Extractor)
      (now : String) (store : Store) (db : Option DB) (query : String)
      (user_id : PValue) (roles pref : List String) (ms : ℚ) (limit : Nat)
      (uid : Int),
      normalize_user_id user_id = .ok uid →
      e1 store query (build_user_or_group_filter (.pint uid)
          (access_groups_from_roles roles)) (max (3 * limit) limit) =
        e2 store query (build_user_or_group_filter (.pint uid)
          (access_groups_from_roles roles)) (max (3 * limit) limit) →
      collectKept (toString uid) (access_groups_from_roles roles) limit ms
        (e1 store query (build_user_or_group_filter (.pint uid)
          (access_groups_from_roles roles)) (max (3 * limit) limit)) ≠ [] →
      rag_search_retry e1 chunker extract now store db query user_id roles
          pref ms limit =
        rag_search_retry e2 chunker extract now store db query user_id roles
          pref ms limit ∧
      (rag_search_retry e1 chunker extract now store db query user_id roles
        pref ms limit).attempts.length = 1 ∧
      (rag_search_retry e1 chunker extract now store db query user_id roles
        pref ms limit).results =
        collectKept (toString uid) (access_groups_from_roles roles) limit ms
          (e1 store query (build_user_or_group_filter (.pint uid)
            (access_groups_from_roles roles)) (max (3 * limit) limit)) := by
  intro e1 e2 chunker extract now store db query user_id roles pref ms limit
    uid hn hag hne
  have hcond : (!(collectKept (toString uid) (access_groups_from_roles roles)
      limit ms (e1 store query (build_user_or_group_filter (.pint uid)
        (access_groups_from_roles roles))
        (max (3 * limit) limit))).isEmpty) = true := by
    have : ¬ ((collectKept (toString uid) (access_groups_from_roles roles)
        limit ms (e1 store query (build_user_or_group_filter (.pint uid)
          (access_groups_from_roles roles))
          (max (3 * limit) limit))).isEmpty = true) := by
      intro h
      exact hne (List.isEmpty_iff.mp h)
    simp only [Bool.not_eq_true] at this
    rw [this]
    rfl
  have h1 : rag_search_retry e1 chunker extract now store db query user_id
      roles pref ms limit =
      ⟨collectKept (toString uid) (access_groups_from_roles roles) limit ms
         (e1 store query (build_user_or_group_filter (.pint uid)
           (access_groups_from_roles roles)) (max (3 * limit) limit)),
       [⟨"A:user+groups",
         (e1 store query (build_user_or_group_filter (.pint uid)
           (access_groups_from_roles roles)) (max (3 * limit) limit)).length,
         (collectKept (toString uid) (access_groups_from_roles roles) limit ms
           (e1 store query (build_user_or_group_filter (.pint uid)
             (access_groups_from_roles roles)) (max (3 * limit) limit))).length,
         max (3 * limit) limit, ms⟩], none⟩ := by
    unfold rag_search_retry
    rw [hn]
    dsimp only [try_search]
    rw [if_pos hcond]
  have h2 : rag_search_retry e2 chunker extract now store db query user_id
      roles pref ms limit =
      ⟨collectKept (toString uid) (access_groups_from_roles roles) limit ms
         (e1 store query (build_user_or_group_filter (.pint uid)
           (access_groups_from_roles roles)) (max (3 * limit) limit)),
       [⟨"A:user+groups",
         (e1 store query (build_user_or_group_filter (.pint uid)
           (access_groups_from_roles roles)) (max (3 * limit) limit)).length,
         (collectKept (toString uid) (access_groups_from_roles roles) limit ms
           (e1 store query (build_user_or_group_filter (.pint uid)
             (access_groups_from_roles roles)) (max (3 * limit) limit))).length,
         max (3 * limit) limit, ms⟩], none⟩ := by
    unfold rag_search_retry
    rw [hn]
    dsimp only [try_search]
    rw [← hag]
    rw [if_pos hcond]
  refine ⟨h1.trans h2.symm, ?_, ?_⟩
  · rw [h1]
    rfl
  · rw [h1]

/-- C4 (witness): the short-circuit facts at the scenario engine and an
engine that agrees with it everywhere (itself): one attempt, step-A kept
list returned. -/
theorem ladder_short_circuit_witness :
    rag_search_retry scenarioEngine (fun _ _ _ => []) (fun _ => "") "T" []
        none "q" (.pstr "1") ["user"] [] (Rat.mk' 3 5) 5 =
      rag_search_retry scenarioEngine (fun _ _ _ => []) (fun _ => "") "T" []
        none "q" (.pstr "1") ["user"] [] (Rat.mk' 3 5) 5 ∧
    (rag_search_retry scenarioEngine (fun _ _ _ => []) (fun _ => "") "T" []
      none "q" (.pstr "1") ["user"] [] (Rat.mk' 3 5) 5).attempts.length = 1 ∧
    (rag_search_retry scenarioEngine (fun _ _ _ => []) (fun _ => "") "T" []
      none "q" (.pstr "1") ["user"] [] (Rat.mk' 3 5) 5).results =
      collectKept (toString (1 : Int)) (access_groups_from_roles ["user"]) 5
        (Rat.mk' 3 5) (scenarioEngine [] "q"
          (build_user_or_group_filter (.pint 1)
            (access_groups_from_roles ["user"])) (max (3 * 5) 5)) :=
  ladder_short_circuit scenarioEngine scenarioEngine (fun _ _ _ => [])
    (fun _ => "") "T" [] none "q" (.pstr "1") ["user"] [] (Rat.mk' 3 5) 5 1
    (by rfl) (by rfl) (by decide)

-- ---------------------------------------------------------------------------
-- C5: ladder exhaustion
-- ---------------------------------------------------------------------------

/-- C5 (counterexample): with no DB session and an index that returns
nothing, no ladder step keeps any result, the ladder returns normally with
empty results — and its attempt log has exactly the three entries
A, B and C, not one per each of the six strategies. -/
theorem ladder_exhaustion_counterexample :
    (rag_search_retry (fun _ _ _ _ => []) (fun _ _ _ => []) (fun _ => "") "T"
      [] none "q" (.pint 1) ["user"] [] (Rat.mk' 3 5) 5).results = [] ∧
    (rag_search_retry (fun _ _ _ _ => []) (fun _ _ _ => []) (fun _ => "") "T"
      [] none "q" (.pint 1) ["user"] [] (Rat.mk' 3 5) 5).error = none ∧
    (rag_search_retry (fun _ _ _ _ => []) (fun _ _ _ => []) (fun _ => "") "T"
      [] none "q" (.pint 1) ["user"] [] (Rat.mk' 3 5) 5).attempts.map
        SearchAttempt.tag =
      ["A:user+groups", "B:user+groups wide", "C:user only"] ∧
    (rag_search_retry (fun _ _ _ _ => []) (fun _ _ _ => []) (fun _ => "") "T"
      [] none "q" (.pint 1) ["user"] [] (Rat.mk' 3 5) 5).attempts.length ≠
      6 :=
  ⟨by decide, by decide, by decide, by decide⟩

lemma ladderStepF_spec (engine : Engine) (chunker : Chunker)
    (extract : Extractor) (now : String) (store : Store) (db : Option DB)
    (query uidStr : String) (group_list : List String)
    (secure_filter : QFilter) (limit : Nat) (atts : List SearchAttempt)
    (ids : List Int) (uid : Int) :
    (ladderStepF engine chunker extract now store db query uidStr group_list
      secure_filter limit atts ids uid).error = none ∧
    (ladderStepF engine chunker extract now store db query uidStr group_list
      secure_filter limit atts ids uid).attempts.map SearchAttempt.tag =
      atts.map SearchAttempt.tag ++
      (if ladderReindexFlag chunker extract now db store ids uid then
        ["F:post-reindex"] else []) := by
  unfold ladderStepF
  cases db with
  | none => simp [ladderReindexFlag]
  | some rows =>
      dsimp only
      by_cases h1 : ids.isEmpty = true
      · rw [if_pos h1]
        simp [ladderReindexFlag, h1]
      · rw [if_neg h1]
        by_cases h2 : (ladderReindex chunker extract now rows store ids uid).2.2 = true
        · rw [if_pos h2]
          have hflag : ladderReindexFlag chunker extract now (some rows) store
              ids uid = true := by
            simp only [ladderReindexFlag]
            simp only [Bool.not_eq_true] at h1 ⊢
            simp [h1, h2]
          rw [hflag]
          simp [try_search]
        · rw [if_neg h2]
          have hflag : ladderReindexFlag chunker extract now (some rows) store
              ids uid = false := by
            simp only [ladderReindexFlag]
            simp only [Bool.and_eq_false_iff]
            right
            simpa using h2
          rw [hflag]
          simp

lemma ladderStepE2_spec (engine : Engine) (chunker : Chunker)
    (extract : Extractor) (now : String) (store : Store) (db : Option DB)
    (query uidStr : String) (group_list : List String)
    (secure_filter : QFilter) (limit : Nat) (atts : List SearchAttempt)
    (ids : List Int) (fns : List (Option String)) (uid : Int)
    (hres : (ladderStepE2 engine chunker extract now store db query uidStr
      group_list secure_filter limit atts ids fns uid).results = []) :
    (ladderStepE2 engine chunker extract now store db query uidStr group_list
      secure_filter limit atts ids fns uid).error = none ∧
    (ladderStepE2 engine chunker extract now store db query uidStr group_list
      secure_filter limit atts ids fns uid).attempts.map SearchAttempt.tag =
      atts.map SearchAttempt.tag ++
      (if fns.isEmpty then [] else ["E2:filename filter"]) ++
      (if ladderReindexFlag chunker extract now db store ids uid then
        ["F:post-reindex"] else []) := by
  unfold ladderStepE2 at hres ⊢
  by_cases h1 : fns.isEmpty = true
  · simp only [if_pos h1] at hres ⊢
    have hF := ladderStepF_spec engine chunker extract now store db query
      uidStr group_list secure_filter limit atts ids uid
    refine ⟨hF.1, ?_⟩
    rw [hF.2]
    simp [h1]
  · simp only [if_neg h1] at hres ⊢
    by_cases h2 : (!(try_search engine store query "E2:filename filter"
        ⟨[.nested (should_filenames_filter fns).must
          (should_filenames_filter fns).should],
         (build_user_or_group_filter (.pint uid) group_list).should⟩ 30
        (Rat.mk' 3 10) uidStr group_list limit).kept.isEmpty) = true
    · exfalso
      simp only [if_pos h2] at hres
      rw [hres] at h2
      simp at h2
    · simp only [if_neg h2] at hres ⊢
      have hF := ladderStepF_spec engine chunker extract now store db query
        uidStr group_list secure_filter limit
        (atts ++ [(try_search engine store query "E2:filename filter"
          ⟨[.nested (should_filenames_filter fns).must
            (should_filenames_filter fns).should],
           (build_user_or_group_filter (.pint uid) group_list).should⟩ 30
          (Rat.mk' 3 10) uidStr group_list limit).attempt]) ids uid
      refine ⟨hF.1, ?_⟩
      rw [hF.2]
      simp [h1, try_search, List.append_assoc]

lemma ladderStepE_spec (engine : Engine) (chunker : Chunker)
    (extract : Extractor) (now : String) (store : Store) (db : Option DB)
    (query uidStr : String) (group_list : List String)
    (secure_filter : QFilter) (limit : Nat) (atts : List SearchAttempt)
    (ids : List Int) (fns : List (Option String)) (uid : Int)
    (hres : (ladderStepE engine chunker extract now store db query uidStr
      group_list secure_filter limit atts ids fns uid).results = []) :
    (ladderStepE engine chunker extract now store db query uidStr group_list
      secure_filter limit atts ids fns uid).error = none ∧
    (ladderStepE engine chunker extract now store db query uidStr group_list
      secure_filter limit atts ids fns uid).attempts.map SearchAttempt.tag =
      atts.map SearchAttempt.tag ++
      (if ids.isEmpty then [] else ["E:doc_id filter"]) ++
      (if fns.isEmpty then [] else ["E2:filename filter"]) ++
      (if ladderReindexFlag chunker extract now db store ids uid then
        ["F:post-reindex"] else []) := by
  unfold ladderStepE at hres ⊢
  by_cases h1 : ids.isEmpty = true
  · simp only [if_pos h1] at hres ⊢
    have hE2 := ladderStepE2_spec engine chunker extract now store db query
      uidStr group_list secure_filter limit atts ids fns uid hres
    refine ⟨hE2.1, ?_⟩
    rw [hE2.2]
    simp [h1]
  · simp only [if_neg h1] at hres ⊢
    by_cases h2 : (!(try_search engine store query "E:doc_id filter"
        ⟨[.nested (must_document_ids_filter (ids.map .pint)).must
          (must_document_ids_filter (ids.map .pint)).should],
         (build_user_or_group_filter (.pint uid) group_list).should⟩ 30
        (Rat.mk' 3 10) uidStr group_list limit).kept.isEmpty) = true
    · exfalso
      simp only [if_pos h2] at hres
      rw [hres] at h2
      simp at h2
    · simp only [if_neg h2] at hres ⊢
      have hE2 := ladderStepE2_spec engine chunker extract now store db query
        uidStr group_list secure_filter limit
        (atts ++ [(try_search engine store query "E:doc_id filter"
          ⟨[.nested (must_document_ids_filter (ids.map .pint)).must
            (must_document_ids_filter (ids.map .pint)).should],
           (build_user_or_group_filter (.pint uid) group_list).should⟩ 30
          (Rat.mk' 3 10) uidStr group_list limit).attempt]) ids fns uid hres
      refine ⟨hE2.1, ?_⟩
      rw [hE2.2]
      simp [h1, try_search, List.append_assoc]

/-- C5 (amended): when no ladder step keeps any result, `rag_search_retry`
returns normally (no error) with empty results, and its attempts log
records one `SearchAttempt` per search actually executed, in ladder order:
the three unconditional strategies A, B, C always; E only when the DB
filename probe yielded candidate ids, E2 only when it yielded filenames,
and F only when reindexing a candidate succeeded.  The probe itself
(step D) records no attempt entry, so a six-entry log never arises without
DB candidates — in particular, with no DB session exactly the three
entries A, B, C are recorded. -/
theorem ladder_exhaustion_amended :
    ∀ (engine : Engine) (chunker : Chunker) (extract : Extractor)
      (now : String) (store : Store) (db : Option DB) (query : String)
      (user_id : PValue) (roles pref : List String) (ms : ℚ) (limit : Nat)
      (uid : Int),
      normalize_user_id user_id = .ok uid →
      (rag_search_retry engine chunker extract now store db query user_id
        roles pref ms limit).results = [] →
      (rag_search_retry engine chunker extract now store db query user_id
        roles pref ms limit).error = none ∧
      (rag_search_retry engine chunker extract now store db query user_id
        roles pref ms limit).attempts.map SearchAttempt.tag =
        ladderExpectedTags
          (ladderProbe db query pref uid (access_groups_from_roles roles)).1
          (ladderProbe db query pref uid (access_groups_from_roles roles)).2
          (ladderReindexFlag chunker extract now db store
            (ladderProbe db query pref uid (access_groups_from_roles roles)).1
            uid) := by
  intro engine chunker extract now store db query user_id roles pref ms limit
    uid hn hres
  unfold rag_search_retry at hres ⊢
  rw [hn] at hres ⊢
  dsimp only at hres ⊢
  by_cases hA : (!(try_search engine store query "A:user+groups"
      (build_user_or_group_filter (.pint uid) (access_groups_from_roles roles))
      (max (3 * limit) limit) ms (toString uid)
      (access_groups_from_roles roles) limit).kept.isEmpty) = true
  · exfalso
    simp only [if_pos hA] at hres
    rw [hres] at hA
    simp at hA
  · simp only [if_neg hA] at hres ⊢
    by_cases hB : (!(try_search engine store query "B:user+groups wide"
        (build_user_or_group_filter (.pint uid)
          (access_groups_from_roles roles)) 20 (Rat.mk' 2 5) (toString uid)
        (access_groups_from_roles roles) limit).kept.isEmpty) = true
    · exfalso
      simp only [if_pos hB] at hres
      rw [hres] at hB
      simp at hB
    · simp only [if_neg hB] at hres ⊢
      by_cases hC : (!(try_search engine store query "C:user only"
          (build_user_or_group_filter (.pint uid) []) 20 (Rat.mk' 7 20)
          (toString uid) (access_groups_from_roles roles)
          limit).kept.isEmpty) = true
      · exfalso
        simp only [if_pos hC] at hres
        rw [hres] at hC
        simp at hC
      · simp only [if_neg hC] at hres ⊢
        have hE := ladderStepE_spec engine chunker extract now store db query
          (toString uid) (access_groups_from_roles roles)
          (build_user_or_group_filter (.pint uid)
            (access_groups_from_roles roles)) limit
          [(try_search engine store query "A:user+groups"
              (build_user_or_group_filter (.pint uid)
                (access_groups_from_roles roles)) (max (3 * limit) limit) ms
              (toString uid) (access_groups_from_roles roles) limit).attempt,
           (try_search engine store query "B:user+groups wide"
              (build_user_or_group_filter (.pint uid)
                (access_groups_from_roles roles)) 20 (Rat.mk' 2 5)
              (toString uid) (access_groups_from_roles roles) limit).attempt,
           (try_search engine store query "C:user only"
              (build_user_or_group_filter (.pint uid) []) 20 (Rat.mk' 7 20)
              (toString uid) (access_groups_from_roles roles) limit).attempt]
          (ladderProbe db query pref uid (access_groups_from_roles roles)).1
          (ladderProbe db query pref uid (access_groups_from_roles roles)).2
          uid hres
        refine ⟨hE.1, ?_⟩
        rw [hE.2]
        simp [try_search, ladderExpectedTags, List.append_assoc]

/-- C5 (witness): the amended exhaustion facts at the concrete no-DB,
empty-index input: error-free, tags A, B, C. -/
theorem ladder_exhaustion_amended_witness :
    (rag_search_retry (fun _ _ _ _ => []) (fun _ _ _ => []) (fun _ => "") "T"
      [] none "q" (.pint 1) ["user"] [] (Rat.mk' 3 5) 5).error = none ∧
    (rag_search_retry (fun _ _ _ _ => []) (fun _ _ _ => []) (fun _ => "") "T"
      [] none "q" (.pint 1) ["user"] [] (Rat.mk' 3 5) 5).attempts.map
        SearchAttempt.tag =
      ladderExpectedTags
        (ladderProbe none "q" [] 1 (access_groups_from_roles ["user"])).1
        (ladderProbe none "q" [] 1 (access_groups_from_roles ["user"])).2
        (ladderReindexFlag (fun _ _ _ => []) (fun _ => "") "T" none []
          (ladderProbe none "q" [] 1 (access_groups_from_roles ["user"])).1
          1) :=
  ladder_exhaustion_amended (fun _ _ _ _ => []) (fun _ _ _ => []) (fun _ => "")
    "T" [] none "q" (.pint 1) ["user"] [] (Rat.mk' 3 5) 5 1 (by rfl)
    (by decide)

-- ---------------------------------------------------------------------------
-- C9: idempotent reprocessing
-- ---------------------------------------------------------------------------

lemma filterMap_length_congr {α β γ : Type} (f : α → Option β)
    (g : α → Option γ) (h : ∀ x, (f x).isSome = (g x).isSome) :
    ∀ l : List α, (l.filterMap f).length = (l.filterMap g).length := by
  intro l
  induction l with
  | nil => rfl
  | cons a as ih =>
      rw [List.filterMap_cons, List.filterMap_cons]
      cases hf : f a with
      | none =>
          have := h a
          rw [hf] at this
          cases hg : g a with
          | none => exact ih
          | some y => rw [hg] at this; cases this
      | some x =>
          have := h a
          rw [hf] at this
          cases hg : g a with
          | none => rw [hg] at this; cases this
          | some y => simp only [List.length_cons, ih]

/-- The number of points built for a text does not depend on the
`created_at` timestamp. -/
lemma indexDocs_length_now (ch : Chunker) (text : String) (uid : Int)
    (did : PValue) (gt fn : Option String) (cs co : Nat) (hdr : Bool)
    (now now' : String) :
    (indexDocs ch text uid did gt fn cs co hdr now).length =
    (indexDocs ch text uid did gt fn cs co hdr now').length := by
  unfold indexDocs
  apply filterMap_length_congr
  intro ic
  by_cases h : pyStrip ic.2 = "" <;> simp [h]

/-- Every constructed point payload carries the document id under
`metadata.document_id`. -/
lemma payloadGet_nestMeta_document_id (uidStr docIdStr : String) (idx : Nat)
    (now : String) (fn gt : Option String) :
    payloadGet (nestMeta (indexChunkMeta uidStr docIdStr idx now fn gt))
      "metadata.document_id" = some (.pstr docIdStr) := by
  unfold indexChunkMeta
  rw [nestMeta_append, nestMeta_append, payloadGet_append, payloadGet_append]
  rfl

/-- Every point `index_text` builds for a document matches the deletion
filter of `remove_document_points` for that document. -/
lemma indexDocs_matches_remove (ch : Chunker) (text : String) (uid : Int)
    (did : PValue) (gt fn : Option String) (cs co : Nat) (hdr : Bool)
    (now : String) :
    ∀ pt ∈ indexDocs ch text uid did gt fn cs co hdr now,
      filterSat (removePointsQFilter (normalize_document_id did))
        pt.payload = true := by
  intro pt hmem
  unfold indexDocs at hmem
  rcases List.mem_filterMap.mp hmem with ⟨ic, _, hic⟩
  by_cases hb : pyStrip ic.2 = ""
  · rw [if_pos hb] at hic; cases hic
  · rw [if_neg hb] at hic
    have hpay : pt.payload = nestMeta (indexChunkMeta (toString uid)
        (normalize_document_id did) ic.1 now fn gt) := by
      cases hic; rfl
    refine filterSat_should_intro (c := .field "metadata.document_id"
      (.value (.pstr (normalize_document_id did)))) (List.mem_cons_self _ _) ?_
    simp [condSat, hpay, payloadGet_nestMeta_document_id, matchCondSat]

/-- Under the 10000-point scroll cap, `remove_document_points` removes
exactly the matching points. -/
lemma remove_document_points_clean (store : Store) (document_id : PValue)
    (hcap : (store.filter (fun p => filterSat (removePointsQFilter
      (normalize_document_id document_id)) p.payload)).length ≤ 10000) :
    (remove_document_points store document_id).1 =
      store.filter (fun p => !(filterSat (removePointsQFilter
        (normalize_document_id document_id)) p.payload)) := by
  unfold remove_document_points
  dsimp only
  rw [List.take_of_length_le hcap]
  by_cases hempty : (store.filter (fun p => filterSat (removePointsQFilter
      (normalize_document_id document_id)) p.payload)).isEmpty = true
  · rw [if_pos hempty]
    have hnil := List.isEmpty_iff.mp hempty
    have : ∀ p ∈ store, (!(filterSat (removePointsQFilter
        (normalize_document_id document_id)) p.payload)) = true := by
      intro p hp
      by_cases hs : filterSat (removePointsQFilter
          (normalize_document_id document_id)) p.payload = true
      · exfalso
        have : p ∈ (store.filter (fun p => filterSat (removePointsQFilter
            (normalize_document_id document_id)) p.payload)) :=
          List.mem_filter.mpr ⟨hp, hs⟩
        rw [hnil] at this
        cases this
      · simp only [Bool.not_eq_true] at hs
        rw [hs]
        rfl
    exact ((List.filter_eq_self).mpr this).symm
  · rw [if_neg hempty]
    dsimp only
    apply List.filter_congr
    intro p hp
    by_cases hs : filterSat (removePointsQFilter
        (normalize_document_id document_id)) p.payload = true
    · have hmem : p ∈ (store.filter (fun p => filterSat (removePointsQFilter
          (normalize_document_id document_id)) p.payload)) :=
        List.mem_filter.mpr ⟨hp, hs⟩
      have hcont : (store.filter (fun p => filterSat (removePointsQFilter
          (normalize_document_id document_id)) p.payload)).contains p = true :=
        List.elem_eq_true_of_mem hmem
      rw [hcont, hs]
    · have hnmem : p ∉ (store.filter (fun p => filterSat (removePointsQFilter
          (normalize_document_id document_id)) p.payload)) := by
        intro hmem
        exact hs (List.mem_filter.mp hmem).2
      have hcont : (store.filter (fun p => filterSat (removePointsQFilter
          (normalize_document_id document_id)) p.payload)).contains p =
          false := by
        cases hcont : (store.filter (fun p => filterSat (removePointsQFilter
            (normalize_document_id document_id)) p.payload)).contains p
        · rfl
        · exact absurd (List.mem_of_elem_eq_true hcont) hnmem
      rw [hcont]
      simp only [Bool.not_eq_true] at hs
      rw [hs]

/-- A committed row mutation that preserves the id and owner columns is
visible through a subsequent owned fetch of the same row. -/
lemma get_document_by_id_dbUpdate {db : DB} {did uid : Int} {doc : DocRow}
    (f : DocRow → DocRow) (hid : ∀ d, (f d).id = d.id)
    (huser : ∀ d, (f d).user_id = d.user_id)
    (hdoc : get_document_by_id db did (some uid) = some doc) :
    get_document_by_id (dbUpdate db did uid f) did (some uid) =
      some (f doc) := by
  unfold get_document_by_id at hdoc ⊢
  unfold dbUpdate
  dsimp only at hdoc ⊢
  induction db with
  | nil => cases hdoc
  | cons d ds ih =>
      rw [List.map_cons]
      by_cases hpred : (d.id = did && d.user_id = uid) = true
      · rw [if_pos hpred]
        rw [List.find?_cons_of_pos _ (by
          have h1 := ((Bool.and_eq_true _ _).mp hpred).1
          have h2 := ((Bool.and_eq_true _ _).mp hpred).2
          simp only [hid, huser]
          simp [h1, h2])]
        rw [List.find?_cons_of_pos _ (by simp [hpred])] at hdoc
        cases hdoc
        rfl
      · rw [if_neg hpred]
        rw [List.find?_cons_of_neg _ (by simpa using hpred)]
        rw [List.find?_cons_of_neg _ (by simpa using hpred)] at hdoc
        exact ih hdoc

/-- The effective reprocessing text is stable under the row mutations a
reprocess run commits: they either leave `extracted_text` alone or store
the effective text itself, and never touch `file_content`. -/
lemma reprocessText_update (ex : Extractor) (doc d' : DocRow)
    (he : d'.extracted_text = some (reprocessText ex doc) ∨
      d'.extracted_text = doc.extracted_text)
    (hf : d'.file_content = doc.file_content) :
    reprocessText ex d' = reprocessText ex doc := by
  rcases he with he | he
  · by_cases h0 : pyStrip (reprocessText ex doc) = ""
    · conv_lhs => unfold reprocessText
      rw [he, hf]
      dsimp only [Option.getD]
      rw [if_pos h0]
      cases hfc : doc.file_content with
      | none => dsimp only
      | some bs =>
          dsimp only
          by_cases hbs : bs.isEmpty = true
          · rw [if_pos hbs]
          · rw [if_neg hbs]
            conv_rhs => unfold reprocessText
            by_cases hb0 : pyStrip (doc.extracted_text.getD "") = ""
            · rw [if_pos hb0, hfc]
              dsimp only
              rw [if_neg hbs]
            · exfalso
              have heq : reprocessText ex doc = doc.extracted_text.getD "" := by
                unfold reprocessText
                rw [if_neg hb0]
              rw [heq] at h0
              exact hb0 h0
    · conv_lhs => unfold reprocessText
      rw [he]
      dsimp only [Option.getD]
      rw [if_neg h0]
  · unfold reprocessText
    rw [he, hf]

/-- Characterization of one `reprocess_document` run on an owned document:
the collection ends as the cleaned collection plus the freshly indexed
points, the chunk count is the fresh point count, and the row remains
fetchable with its group, filename and effective text unchanged. -/
lemma reprocess_document_run (ch : Chunker) (ex : Extractor) (now : String)
    (db : DB) (store : Store) (did uid : Int) (doc : DocRow)
    (hdoc : get_document_by_id db did (some uid) = some doc) :
    ∃ doc' : DocRow,
      get_document_by_id (reprocess_document ch ex now db store (.pint did)
        (.pint uid)).db did (some uid) = some doc' ∧
      doc'.group_tag = doc.group_tag ∧
      doc'.filename = doc.filename ∧
      reprocessText ex doc' = reprocessText ex doc ∧
      (reprocess_document ch ex now db store (.pint did) (.pint uid)).store =
        (if pyStrip (reprocessText ex doc) = "" then
          (remove_document_points store (.pint did)).1
         else
          (remove_document_points store (.pint did)).1 ++
            indexDocs ch (reprocessText ex doc) uid (.pint did) doc.group_tag
              doc.filename 1200 200 true now) ∧
      (reprocess_document ch ex now db store (.pint did)
          (.pint uid)).chunks_count =
        (if pyStrip (reprocessText ex doc) = "" then 0
         else (indexDocs ch (reprocessText ex doc) uid (.pint did)
           doc.group_tag doc.filename 1200 200 true now).length) := by
  unfold reprocess_document
  dsimp only [normalize_user_id, pyIntOfPValue]
  rw [hdoc]
  dsimp only
  by_cases ht : pyStrip (reprocessText ex doc) = ""
  · rw [if_pos ht, if_pos ht, if_pos ht]
    by_cases hb : (pyStrip (doc.extracted_text.getD "") = "" &&
        (match doc.file_content with
         | some bs => !bs.isEmpty
         | none => false)) = true
    · rw [if_pos hb]
      refine ⟨_, get_document_by_id_dbUpdate _ (fun d => rfl) (fun d => rfl)
        (get_document_by_id_dbUpdate _ (fun d => rfl) (fun d => rfl) hdoc),
        rfl, rfl, ?_, rfl, rfl⟩
      exact reprocessText_update ex doc _ (Or.inl rfl) rfl
    · rw [if_neg hb]
      refine ⟨_, get_document_by_id_dbUpdate _ (fun d => rfl) (fun d => rfl)
        hdoc, rfl, rfl, ?_, rfl, rfl⟩
      exact reprocessText_update ex doc _ (Or.inr rfl) rfl
  · rw [if_neg ht, if_neg ht, if_neg ht]
    unfold index_text
    rw [if_neg ht]
    dsimp only [normalize_user_id]
    by_cases hb : (pyStrip (doc.extracted_text.getD "") = "" &&
        (match doc.file_content with
         | some bs => !bs.isEmpty
         | none => false)) = true
    · rw [if_pos hb]
      refine ⟨_, get_document_by_id_dbUpdate _
        (fun d => by split_ifs <;> rfl) (fun d => by split_ifs <;> rfl)
        (get_document_by_id_dbUpdate _ (fun d => rfl) (fun d => rfl) hdoc),
        ?_, ?_, ?_, rfl, rfl⟩
      · dsimp only
        split_ifs <;> rfl
      · dsimp only
        split_ifs <;> rfl
      · refine reprocessText_update ex doc _ (Or.inl ?_) ?_
        · dsimp only
          split_ifs <;> rfl
        · dsimp only
          split_ifs <;> rfl
    · rw [if_neg hb]
      refine ⟨_, get_document_by_id_dbUpdate _
        (fun d => by split_ifs <;> rfl) (fun d => by split_ifs <;> rfl)
        hdoc, ?_, ?_, ?_, rfl, rfl⟩
      · dsimp only
        split_ifs <;> rfl
      · dsimp only
        split_ifs <;> rfl
      · refine reprocessText_update ex doc _ (Or.inr ?_) ?_
        · dsimp only
          split_ifs <;> rfl
        · dsimp only
          split_ifs <;> rfl

lemma filter_bool_idem {α : Type} (p : α → Bool) (l : List α) :
    (l.filter p).filter p = l.filter p := by
  induction l with
  | nil => rfl
  | cons a as ih =>
      by_cases h : p a = true
      · rw [List.filter_cons_of_pos h, List.filter_cons_of_pos h, ih]
      · rw [List.filter_cons_of_neg h]
        exact ih

lemma filter_sat_of_not {α : Type} (p : α → Bool) (l : List α) :
    (l.filter (fun a => !(p a))).filter p = [] := by
  induction l with
  | nil => rfl
  | cons a as ih =>
      by_cases h : p a = true
      · rw [List.filter_cons_of_neg (by simp [h])]
        exact ih
      · rw [List.filter_cons_of_pos (by simp [h]),
          List.filter_cons_of_neg (by simp [h])]
        exact ih

lemma filter_not_of_sat {α : Type} (p : α → Bool) (l : List α)
    (h : ∀ a ∈ l, p a = true) : l.filter (fun a => !(p a)) = [] := by
  induction l with
  | nil => rfl
  | cons a as ih =>
      rw [List.filter_cons_of_neg (by simp [h a (List.mem_cons_self a as)])]
      exact ih (fun b hb => h b (List.mem_cons_of_mem a hb))

/-- C9: reprocessing an owned document twice yields the same chunk count
both times, and leaves the index holding exactly one copy of the
document's chunks: after the second run the points matching the document
id number exactly the reported chunk count, with no duplicate
accumulation.  (The two scroll-cap hypotheses reflect the 10000-point
deletion scroll limit of `remove_document_points`.) -/
theorem reprocess_document_idempotent :
    ∀ (chunker : Chunker) (extract : Extractor) (now1 now2 : String)
      (db : DB) (store : Store) (did uid : Int) (doc : DocRow),
      get_document_by_id db did (some uid) = some doc →
      (store.filter (fun p => filterSat (removePointsQFilter
        (normalize_document_id (.pint did))) p.payload)).length ≤ 10000 →
      (indexDocs chunker (reprocessText extract doc) uid (.pint did)
        doc.group_tag doc.filename 1200 200 true now1).length ≤ 10000 →
      ∀ r1, r1 = reprocess_document chunker extract now1 db store (.pint did)
        (.pint uid) →
      ∀ r2, r2 = reprocess_document chunker extract now2 r1.db r1.store
        (.pint did) (.pint uid) →
      r1.chunks_count = r2.chunks_count ∧
      (r2.store.filter (fun p => filterSat (removePointsQFilter
        (normalize_document_id (.pint did))) p.payload)).length =
        r2.chunks_count := by
  intro chunker extract now1 now2 db store did uid doc hdoc hcap hdocs r1 hr1
    r2 hr2
  obtain ⟨doc1, hget1, hgt1, hfn1, htx1, hst1, hcc1⟩ :=
    reprocess_document_run chunker extract now1 db store did uid doc hdoc
  rw [← hr1] at hget1 hst1 hcc1
  obtain ⟨doc2, hget2, hgt2, hfn2, htx2, hst2, hcc2⟩ :=
    reprocess_document_run chunker extract now2 r1.db r1.store did uid doc1
      hget1
  rw [← hr2] at hst2 hcc2
  rw [htx1, hgt1, hfn1] at hst2 hcc2
  have hclean1 : (remove_document_points store (.pint did)).1 =
      store.filter (fun p => !(filterSat (removePointsQFilter
        (normalize_document_id (.pint did))) p.payload)) :=
    remove_document_points_clean store _ hcap
  by_cases ht : pyStrip (reprocessText extract doc) = ""
  · rw [if_pos ht] at hst1 hcc1 hst2 hcc2
    have hmatch1 : r1.store.filter (fun p => filterSat (removePointsQFilter
        (normalize_document_id (.pint did))) p.payload) = [] := by
      rw [hst1, hclean1]
      exact filter_sat_of_not _ store
    have hclean2 : (remove_document_points r1.store (.pint did)).1 =
        r1.store.filter (fun p => !(filterSat (removePointsQFilter
          (normalize_document_id (.pint did))) p.payload)) :=
      remove_document_points_clean r1.store _ (by rw [hmatch1]; simp)
    have hstore2 : r2.store = r1.store := by
      rw [hst2, hclean2, hst1, hclean1]
      exact filter_bool_idem _ store
    refine ⟨by rw [hcc1, hcc2], ?_⟩
    rw [hstore2, hmatch1, hcc2]
    rfl
  · rw [if_neg ht] at hst1 hcc1 hst2 hcc2
    have hdocs1 : (indexDocs chunker (reprocessText extract doc) uid
        (.pint did) doc.group_tag doc.filename 1200 200 true now1).filter
        (fun p => filterSat (removePointsQFilter
          (normalize_document_id (.pint did))) p.payload) =
        indexDocs chunker (reprocessText extract doc) uid (.pint did)
          doc.group_tag doc.filename 1200 200 true now1 :=
      List.filter_eq_self.mpr (indexDocs_matches_remove chunker _ uid
        (.pint did) doc.group_tag doc.filename 1200 200 true now1)
    have hmatch1 : r1.store.filter (fun p => filterSat (removePointsQFilter
        (normalize_document_id (.pint did))) p.payload) =
        indexDocs chunker (reprocessText extract doc) uid (.pint did)
          doc.group_tag doc.filename 1200 200 true now1 := by
      rw [hst1, hclean1, List.filter_append, filter_sat_of_not, hdocs1]
      rfl
    have hclean2 : (remove_document_points r1.store (.pint did)).1 =
        r1.store.filter (fun p => !(filterSat (removePointsQFilter
          (normalize_document_id (.pint did))) p.payload)) :=
      remove_document_points_clean r1.store _ (by rw [hmatch1]; exact hdocs)
    have hr1clean : r1.store.filter (fun p => !(filterSat (removePointsQFilter
        (normalize_document_id (.pint did))) p.payload)) =
        store.filter (fun p => !(filterSat (removePointsQFilter
          (normalize_document_id (.pint did))) p.payload)) := by
      rw [hst1, hclean1, List.filter_append, filter_bool_idem,
        filter_not_of_sat _ _ (indexDocs_matches_remove chunker _ uid
          (.pint did) doc.group_tag doc.filename 1200 200 true now1),
        List.append_nil]
    have hdocs2 : (indexDocs chunker (reprocessText extract doc) uid
        (.pint did) doc.group_tag doc.filename 1200 200 true now2).filter
        (fun p => filterSat (removePointsQFilter
          (normalize_document_id (.pint did))) p.payload) =
        indexDocs chunker (reprocessText extract doc) uid (.pint did)
          doc.group_tag doc.filename 1200 200 true now2 :=
      List.filter_eq_self.mpr (indexDocs_matches_remove chunker _ uid
        (.pint did) doc.group_tag doc.filename 1200 200 true now2)
    refine ⟨?_, ?_⟩
    · rw [hcc1, hcc2]
      exact indexDocs_length_now chunker _ uid (.pint did) doc.group_tag
        doc.filename 1200 200 true now1 now2
    · rw [hst2, hclean2, hr1clean, List.filter_append, filter_sat_of_not,
        hdocs2, hcc2]
      rfl

/-- C9 (witness): two successive reprocess runs of the concrete document
report the same chunk count and leave exactly that many matching points. -/
theorem reprocess_document_idempotent_witness :
    (reprocess_document (fun t _ _ => [t]) (fun _ => "") "T1" [c9Row] []
      (.pint 1) (.pint 7)).chunks_count =
    (reprocess_document (fun t _ _ => [t]) (fun _ => "") "T2"
      (reprocess_document (fun t _ _ => [t]) (fun _ => "") "T1" [c9Row] []
        (.pint 1) (.pint 7)).db
      (reprocess_document (fun t _ _ => [t]) (fun _ => "") "T1" [c9Row] []
        (.pint 1) (.pint 7)).store (.pint 1) (.pint 7)).chunks_count ∧
    ((reprocess_document (fun t _ _ => [t]) (fun _ => "") "T2"
      (reprocess_document (fun t _ _ => [t]) (fun _ => "") "T1" [c9Row] []
        (.pint 1) (.pint 7)).db
      (reprocess_document (fun t _ _ => [t]) (fun _ => "") "T1" [c9Row] []
        (.pint 1) (.pint 7)).store (.pint 1) (.pint 7)).store.filter
        (fun p => filterSat (removePointsQFilter
          (normalize_document_id (.pint 1))) p.payload)).length =
    (reprocess_document (fun t _ _ => [t]) (fun _ => "") "T2"
      (reprocess_document (fun t _ _ => [t]) (fun _ => "") "T1" [c9Row] []
        (.pint 1) (.pint 7)).db
      (reprocess_document (fun t _ _ => [t]) (fun _ => "") "T1" [c9Row] []
        (.pint 1) (.pint 7)).store (.pint 1) (.pint 7)).chunks_count :=
  reprocess_document_idempotent (fun t _ _ => [t]) (fun _ => "") "T1" "T2"
    [c9Row] [] 1 7 c9Row (by decide) (by decide) (by decide) _ rfl _ rfl
